import Mathlib

/-!
Verification development for the conmon-v3 supervision core.

This file gives a shallow embedding, in Lean, of the parts of the
conmon-v3 sources that the specification talks about:

* `src/parent_pipe.rs` — adoption of pipe fds from the environment and
  the sync-pipe JSON protocol (`get_pipe_fd_from_env_with`,
  `write_all_fd`, `write_or_close_sync_fd`);
* `src/runtime/stdio.rs` — the poll-based stdio/attach multiplexer
  (`handle_stdio`), embedded as a small-step state machine over the
  walk index;
* `src/log_plugin.rs` — plugin path resolution and the v1 plugin ABI
  lifecycle (`resolve_plugin_path`, `LoadedLogPlugin::load`/`Drop`);
* `src/runtime/args.rs` and `src/commands/create.rs`,
  `src/commands/restore.rs` — runtime argv construction;
* `src/unix_socket.rs` — the attach-socket parent-directory computation
  (`UnixSocket::socket_parent_dir`).

Pure Rust functions become Lean functions; syscall results (write,
read, recvfrom, accept, fcntl, env lookup) are passed in explicitly as
oracle values, so every definition is executable.  Machine integers are
modelled as `Int`/`Nat` with explicit range checks where the Rust code
checks overflow (`i32::from_str`).  Strings are modelled through their
character lists; the code under verification only ever compares,
concatenates and escapes bytes, which agrees with `Char`-level
operations on the ASCII fragments in question.
-/

set_option linter.unusedVariables false

namespace Conmon

/-! ## Common error model (src/error/mod.rs) -/

/-- The errnos that the code under verification distinguishes. -/
inductive Errno where
  | epipe
  | eintr
  | eio
  | eagain
  | other (n : Nat)
deriving DecidableEq, Repr

/-- `ConmonError` (src/error/mod.rs): a human-readable message plus a
numeric code (`u8` in the source; all sites in scope use code 1). -/
structure ConmonError where
  msg : String
  code : Nat
deriving DecidableEq, Repr

/-! ## Decimal and JSON rendering helpers

`write_or_close_sync_fd` serializes a `serde_json::Map` (a `BTreeMap`,
so keys are kept in sorted order) and appends a newline.  The helpers
below embed serde_json's serializer for the fragment that can occur:
an object whose values are an `i32` and an optional string. -/

/-- Decimal digit character: 0 ↦ '0', …, 9 ↦ '9'. -/
def digitChar10 (d : Nat) : Char := Char.ofNat (48 + d)

/-- Little-endian decimal digits of a natural number; structurally
recursive on a fuel argument so that it evaluates in the kernel.  The
fuel `n + 1` always suffices, since the digit count of `n` is at most
`n + 1`. -/
def natDecRevAux : Nat → Nat → List Char
  | 0, _ => []
  | fuel + 1, n =>
    if n < 10 then [digitChar10 n]
    else digitChar10 (n % 10) :: natDecRevAux fuel (n / 10)

/-- Little-endian decimal digits of a natural number (at least one digit). -/
def natDecRev (n : Nat) : List Char := natDecRevAux (n + 1) n

/-- Decimal rendering of an integer, as serde_json (itoa) prints an `i32`. -/
def int_dec (i : Int) : List Char :=
  if i < 0 then '-' :: (natDecRev i.natAbs).reverse
  else (natDecRev i.natAbs).reverse

/-- Lowercase hexadecimal digit character (serde_json's HEX_DIGITS table). -/
def hexLower (n : Nat) : Char :=
  if n < 10 then Char.ofNat (48 + n) else Char.ofNat (87 + n)

/-- serde_json's escaping of one character inside a JSON string:
`"` and `\` are backslash-escaped, the control characters BS, TAB, LF,
FF, CR get their short escapes, any other control character becomes
`\u00XX`, and everything else is emitted verbatim. -/
def escape_char (c : Char) : List Char :=
  if c = '"' then ['\\', '"']
  else if c = '\\' then ['\\', '\\']
  else if c = '\x08' then ['\\', 'b']
  else if c = '\x09' then ['\\', 't']
  else if c = '\x0a' then ['\\', 'n']
  else if c = '\x0c' then ['\\', 'f']
  else if c = '\x0d' then ['\\', 'r']
  else if c.toNat < 32 then
    let n := c.toNat
    '\\' :: 'u' :: '0' :: '0' :: hexLower (n / 16) :: [hexLower (n % 16)]
  else [c]

/-- JSON values appearing in sync-pipe messages. -/
inductive Json where
  | int (i : Int)
  | str (s : String)
deriving DecidableEq, Repr

/-- Rendering of a JSON scalar value. -/
def render_json_value : Json → List Char
  | .int i => int_dec i
  | .str s => '"' :: (s.data.map escape_char).flatten ++ ['"']

/-- Rendering of one `"key":value` member. -/
def render_json_member (kv : String × Json) : List Char :=
  render_json_value (.str kv.1) ++ ':' :: render_json_value kv.2

/-- Comma-separated member list of a JSON object body. -/
def render_json_members : List (String × Json) → List Char
  | [] => []
  | [kv] => render_json_member kv
  | kv :: rest => render_json_member kv ++ ',' :: render_json_members rest

/-- Rendering of a whole JSON object (serde_json `Value::Object`). -/
def render_json_obj (pairs : List (String × Json)) : List Char :=
  '\x7b' :: render_json_members pairs ++ ['\x7d']

/-- Insertion into a `serde_json::Map` (a `BTreeMap`: sorted by key,
replacing an equal key).  Rust's `Ord` on `String` compares UTF-8
bytes, which on these keys coincides with lexicographic comparison of
the character lists. -/
def mapInsert (k : String) (v : Json) : List (String × Json) → List (String × Json)
  | [] => [(k, v)]
  | (k₀, v₀) :: rest =>
    if k.data < k₀.data then (k, v) :: (k₀, v₀) :: rest
    else if k = k₀ then (k, v) :: rest
    else (k₀, v₀) :: mapInsert k v rest

/-- Key lookup in the association-list view of the map. -/
def objLookup (k : String) : List (String × Json) → Option Json
  | [] => none
  | (k₀, v) :: rest => if k = k₀ then some v else objLookup k rest

/-! ## Sync-pipe protocol (src/parent_pipe.rs) -/

/-- The integer key chosen by `write_or_close_sync_fd`
(src/parent_pipe.rs lines 81–87): `"data"` when API version ≥ 1, else
`"exit_code"` for exec sessions, else `"pid"`. -/
def sync_data_key (opt_api_version : Int) (opt_exec : Bool) : String :=
  if opt_api_version ≥ 1 then "data"
  else if opt_exec then "exit_code"
  else "pid"

/-- The JSON object built by `write_or_close_sync_fd`
(src/parent_pipe.rs lines 89–99): insert the integer under the chosen
key, then insert `"message"` iff a non-empty message was supplied. -/
def sync_obj (int_data : Int) (str_data : Option String)
    (opt_api_version : Int) (opt_exec : Bool) : List (String × Json) :=
  let obj := mapInsert (sync_data_key opt_api_version opt_exec) (.int int_data) []
  match str_data with
  | some msg => if msg = "" then obj else mapInsert "message" (.str msg) obj
  | none => obj

/-- The full buffer handed to `write_all_fd`
(src/parent_pipe.rs lines 100–101): the serialized object followed by a
single `'\n'`. -/
def sync_pipe_line (int_data : Int) (str_data : Option String)
    (opt_api_version : Int) (opt_exec : Bool) : List Char :=
  render_json_obj (sync_obj int_data str_data opt_api_version opt_exec) ++ ['\n']

/-- One result of the `write(2)` syscall as seen by `write_all_fd`:
either `n` bytes were accepted, or an errno came back.  A run of
`write_all_fd` consumes a finite trace of such results; `none` below
means the supplied trace was too short to decide the outcome. -/
inductive WriteRes where
  | ok (n : Nat)
  | err (e : Errno)
deriving DecidableEq, Repr

/-- `write_all_fd` (src/parent_pipe.rs lines 54–70): loop until the
buffer (of the given length) is fully written, treating `Ok(0)` as
`EIO`, retrying on `EINTR`, advancing past short writes, and surfacing
any other errno. -/
def write_all_fd : List WriteRes → Nat → Option (Except Errno Unit)
  | _, 0 => some (.ok ())
  | [], _ + 1 => none
  | .ok 0 :: _, _ + 1 => some (.error .eio)
  | .ok (m + 1) :: rest, len + 1 => write_all_fd rest (len + 1 - (m + 1))
  | .err .eintr :: rest, len + 1 => write_all_fd rest (len + 1)
  | .err e :: _, _ + 1 => some (.error e)

/-- A pipe fd owned by the process: its fd number and whether
`FD_CLOEXEC` is set on it. -/
structure OwnedFdM where
  num : Int
  cloexec : Bool
deriving DecidableEq, Repr

/-- `write_or_close_sync_fd` (src/parent_pipe.rs lines 74–112): build
the JSON line and write it with `write_all_fd`.  On success the fd is
returned (retained); on `EPIPE` the call succeeds with `none` (the fd
is dropped); any other write error is fatal with code 1. -/
def write_or_close_sync_fd (fd : OwnedFdM) (int_data : Int)
    (str_data : Option String) (opt_api_version : Int) (opt_exec : Bool)
    (trace : List WriteRes) : Option (Except ConmonError (Option OwnedFdM)) :=
  let json := sync_pipe_line int_data str_data opt_api_version opt_exec
  match write_all_fd trace json.length with
  | none => none
  | some (.ok ()) => some (.ok (some fd))
  | some (.error .epipe) => some (.ok none)
  | some (.error _) =>
    some (.error ⟨"Unable to send container stderr message to parent", 1⟩)

/-- Result of `std::env::var` as seen by the injected `Env` trait
(src/parent_pipe.rs lines 11–20). -/
inductive VarResult where
  | present (s : String)
  | notPresent
  | notUnicode
deriving DecidableEq, Repr

/-- ASCII digit test. -/
def isAsciiDigit (c : Char) : Bool := 48 ≤ c.toNat && c.toNat ≤ 57

/-- Numeric value of a list of ASCII digits. -/
def digitsToNat (ds : List Char) : Nat :=
  ds.foldl (fun acc c => acc * 10 + (c.toNat - 48)) 0

/-- Embedding of Rust `str::parse::<i32>`: an optional `+`/`-` sign
followed by at least one ASCII digit, with the value required to fit in
a signed 32-bit integer; anything else fails. -/
def parse_i32 (s : String) : Option Int :=
  let signed : Int × List Char :=
    match s.data with
    | '+' :: rest => (1, rest)
    | '-' :: rest => (-1, rest)
    | cs => (1, cs)
  let ds := signed.2
  if ds.isEmpty then none
  else if ds.all isAsciiDigit then
    let v : Int := signed.1 * (digitsToNat ds : Int)
    if -(2 ^ 31) ≤ v ∧ v ≤ 2 ^ 31 - 1 then some v else none
  else none

/-- `get_pipe_fd_from_env_with` (src/parent_pipe.rs lines 29–51): an
absent variable yields no fd; a non-UTF-8 value or a value that does
not parse as `i32` is a fatal error with code 1; otherwise the integer
is adopted as an owned fd and `FD_CLOEXEC` is set on it (the `fcntl`
result is passed in as `fcntl_ok`). -/
def get_pipe_fd_from_env_with (envname : String) (v : VarResult)
    (fcntl_ok : Bool) : Except ConmonError (Option OwnedFdM) :=
  match v with
  | .notPresent => .ok none
  | .notUnicode => .error ⟨"unable to parse " ++ envname, 1⟩
  | .present pipe_str =>
    match parse_i32 pipe_str with
    | none =>
      .error ⟨"unable to parse " ++ envname ++ " : " ++ pipe_str
        ++ " not an integer", 1⟩
    | some fd =>
      if fcntl_ok then .ok (some { num := fd, cloexec := true })
      else .error ⟨"unable to make " ++ envname ++ " CLOEXEC", 1⟩

/-- `s` contains `needle` as a contiguous substring (stated on the
underlying character lists). -/
def strContainsSub (hay needle : String) : Prop :=
  ∃ a b, hay.data = a ++ needle.data ++ b

/-- `RuntimeSession::write_exit_code` (src/runtime/session.rs lines
176–191), focused on its use of the sync pipe: the stored
`sync_pipe_fd` is taken; when it is `none` no write is attempted at
all, otherwise the exit code and the single stderr read are sent with
`write_or_close_sync_fd` and the returned fd (if any) is stored back.
The boolean in the result records whether a write was attempted. -/
def write_exit_code (sync_pipe_fd : Option OwnedFdM) (exit_code : Int)
    (err_str : String) (api_version : Int) (trace : List WriteRes) :
    Option (Except ConmonError (Option OwnedFdM × Bool)) :=
  match sync_pipe_fd with
  | none => some (.ok (none, false))
  | some fd =>
    match write_or_close_sync_fd fd exit_code (some err_str) api_version true trace with
    | none => none
    | some (.ok newFd) => some (.ok (newFd, true))
    | some (.error e) => some (.error e)

/-! ## Stdio multiplexer (src/runtime/stdio.rs)

`handle_stdio` is a blocking poll loop that walks a vector of poll
descriptors by index while mutating it.  We embed the body of the index
walk as a small-step function `step` over an explicit state.  Syscall
results (`read`, `recvfrom`, `accept`) are carried on each watched
entry as oracle data: the entry records what its revents are and what
reading it would return this round.  Entries pushed during a walk carry
empty revents, exactly as a fresh `PollFd` does.  The single point
where the model idealizes the source: the best-effort
`write(workerfd_stdin, ..)` to the container stdin is modelled as
always succeeding, with the forwarded bytes accumulated in
`stdinLog`. -/

/-- `SocketType` (src/unix_socket.rs lines 28–33). -/
inductive SocketType where
  | console
  | notify
deriving DecidableEq, Repr

/-- `RemoteSocket` (src/unix_socket.rs lines 36–41): a connected client
fd plus the parent socket type (the 8 KiB buffer field carries no
state the multiplexer reads). -/
structure RemoteSock where
  socket_type : SocketType
  fd : Nat
deriving DecidableEq, Repr

/-- The poll revents bits the walk inspects. -/
structure Revents where
  pollin : Bool
  pollhup : Bool
deriving DecidableEq, Repr

/-- Result of `read`/`recvfrom` on a ready fd: `ok bytes` models
`Ok(n)` with the received bytes (`n = 0`, i.e. `bytes = []`, is EOF);
`again` models `EWOULDBLOCK`/`EAGAIN`; `fatal` any other errno. -/
inductive IoEvent where
  | ok (bytes : List Nat)
  | again
  | fatal
deriving DecidableEq, Repr

/-- One watched poll descriptor: its fd number, its revents from the
last `poll`, and the oracle data for reading/accepting on it. -/
structure Entry where
  fd : Nat
  revents : Revents
  io : IoEvent
  acceptRes : Option RemoteSock
deriving DecidableEq, Repr

/-- The default entry used by the total indexing operation (the walk
only indexes under its `i < fds.len()` bound). -/
def entryDefault : Entry := ⟨0, ⟨false, false⟩, .again, none⟩

/-- The per-call constants of `handle_stdio`: the container stdout and
stderr fd numbers, the index of the attach-listen entry (if any), the
constant `remote_base` (the watch-set size at entry, src/runtime/stdio.rs
line 86), and the `leave_stdin_open` flag. -/
structure StdioCfg where
  stdoutFd : Nat
  stderrFd : Nat
  attachIndex : Option Nat
  remote_base : Nat
  leave_stdin_open : Bool
deriving DecidableEq, Repr

/-- The mutable state of the walk: the poll vector `fds`, the parallel
client table `remote_sockets`, the optional container-stdin write end,
the bytes forwarded to it so far, and the walk index `i`. -/
structure WalkState where
  fds : List Entry
  remote_sockets : List RemoteSock
  workerfd_stdin : Option Nat
  stdinLog : List Nat
  i : Nat
deriving DecidableEq, Repr

/-- Outcome of one step of the walk: continue with a new state, return
`Ok(())` from `handle_stdio`, return a fatal read error, hit an
out-of-bounds panic (never reached under the walk invariant), or fall
out of the `while i < fds.len()` loop back to `poll`. -/
inductive StepOut where
  | cont (s : WalkState)
  | exitOk
  | exitErr
  | panic
  | roundDone
deriving DecidableEq, Repr

/-- `Vec::swap_remove(i)`: remove index `i` by moving the last element
into its place. -/
def swapRemove {α : Type} (l : List α) (i : Nat) : List α :=
  match h : l.getLast? with
  | none => []
  | some x => (l.set i x).dropLast

/-- One iteration of the index walk of `handle_stdio`
(src/runtime/stdio.rs lines 107–218), at walk index `s.i`. -/
def step (cfg : StdioCfg) (s : WalkState) : StepOut :=
  if s.i < s.fds.length then
    let pfd := s.fds.getD s.i entryDefault
    if pfd.revents.pollin then
      -- 1) attach socket ready: accept a client, extend both vectors
      if some s.i = cfg.attachIndex then
        match pfd.acceptRes with
        | some remote =>
          .cont { s with
            remote_sockets := s.remote_sockets ++ [remote],
            fds := s.fds ++ [{ fd := remote.fd, revents := ⟨false, false⟩,
                               io := .again, acceptRes := none }],
            i := s.i + 1 }
        | none => .cont { s with i := s.i + 1 }
      -- 2) stdout / stderr ready: read and forward to the log plugin
      else if pfd.fd = cfg.stdoutFd ∨ pfd.fd = cfg.stderrFd then
        match pfd.io with
        | .ok bytes =>
          if bytes.isEmpty then .exitOk else .cont { s with i := s.i + 1 }
        | .again => .cont { s with i := s.i + 1 }
        | .fatal => .exitErr
      -- 3) remote socket ready: forward, or swap-remove on EOF/error
      else if cfg.remote_base ≤ s.i then
        let remote_idx := s.i - cfg.remote_base
        match pfd.io with
        | .ok bytes =>
          if bytes.isEmpty then
            match s.remote_sockets.get? remote_idx with
            | none => .panic
            | some remote =>
              .cont { s with
                remote_sockets := swapRemove s.remote_sockets remote_idx,
                fds := swapRemove s.fds s.i,
                workerfd_stdin :=
                  if remote.socket_type = .console ∧ cfg.leave_stdin_open = false
                  then none else s.workerfd_stdin }
          else
            match s.remote_sockets.get? remote_idx with
            | none => .panic
            | some remote =>
              match remote.socket_type with
              | .console =>
                match s.workerfd_stdin with
                | some _ =>
                  .cont { s with stdinLog := s.stdinLog ++ bytes, i := s.i + 1 }
                | none => .cont { s with i := s.i + 1 }
              | .notify => .cont { s with i := s.i + 1 }
        | .again => .cont { s with i := s.i + 1 }
        | .fatal =>
          match s.remote_sockets.get? remote_idx with
          | none => .panic
          | some remote =>
            .cont { s with
              remote_sockets := swapRemove s.remote_sockets remote_idx,
              fds := swapRemove s.fds s.i,
              workerfd_stdin :=
                if remote.socket_type = .console ∧ cfg.leave_stdin_open = false
                then none else s.workerfd_stdin }
      else
        .cont { s with i := s.i + 1 }
    else if pfd.revents.pollhup then
      .exitOk
    else
      .cont { s with i := s.i + 1 }
  else
    .roundDone

/-- The oracle data one `poll` round assigns to an existing entry. -/
structure RoundInfo where
  revents : Revents
  io : IoEvent
  acceptRes : Option RemoteSock
deriving DecidableEq, Repr

/-- Pointwise refresh of the oracle data on the watch set; fd numbers
and the list length are untouched. -/
def applyRound : List Entry → List RoundInfo → List Entry
  | [], _ => []
  | e :: es, [] => e :: es
  | e :: es, inf :: infs =>
    { fd := e.fd, revents := inf.revents, io := inf.io,
      acceptRes := inf.acceptRes } :: applyRound es infs

/-- Start of a new poll round: `poll` refreshes every entry's revents
(and the oracle refreshes the pending io data) and the walk restarts at
index 0.  The fd numbers and both tables are untouched. -/
def setRound (s : WalkState) (infos : List RoundInfo) : WalkState :=
  { s with fds := applyRound s.fds infos, i := 0 }

/-- One transition of the whole event loop: either one walk step, or
falling out of the walk and entering the next poll round. -/
def sessStep (cfg : StdioCfg) (s s' : WalkState) : Prop :=
  step cfg s = .cont s'
  ∨ ∃ infos, step cfg s = .roundDone ∧ s' = setRound s infos

/-- Reachability in the event loop. -/
def sessReach (cfg : StdioCfg) : WalkState → WalkState → Prop :=
  Relation.ReflTransGen (sessStep cfg)

/-- The walk invariant: `remote_base` never exceeds the watch-set size,
and the tail of `fds` beyond `remote_base` lists exactly the fds of
`remote_sockets`, in order (src/runtime/stdio.rs line 85: "All
RemoteSockets live at indices >= remote_base in fds"). -/
def Inv (cfg : StdioCfg) (s : WalkState) : Prop :=
  cfg.remote_base ≤ s.fds.length
  ∧ (s.fds.drop cfg.remote_base).map Entry.fd
      = s.remote_sockets.map RemoteSock.fd

/-- The entry conditions under which the walk at index `s.i` is
processing a remote client whose read returned EOF or a fatal error
(the swap-remove branches of src/runtime/stdio.rs lines 181–192 and
197–207). -/
def isRemoteRemovalStep (cfg : StdioCfg) (s : WalkState) : Prop :=
  s.i < s.fds.length
  ∧ (s.fds.getD s.i entryDefault).revents.pollin = true
  ∧ some s.i ≠ cfg.attachIndex
  ∧ (s.fds.getD s.i entryDefault).fd ≠ cfg.stdoutFd
  ∧ (s.fds.getD s.i entryDefault).fd ≠ cfg.stderrFd
  ∧ cfg.remote_base ≤ s.i
  ∧ ((s.fds.getD s.i entryDefault).io = .ok [] ∨ (s.fds.getD s.i entryDefault).io = .fatal)

/-- The entry conditions under which the walk at index `s.i` is
processing a remote client whose read returned the (non-empty) bytes
`bytes` (the forwarding branch of src/runtime/stdio.rs lines
166–180). -/
def isConsoleDataStep (cfg : StdioCfg) (s : WalkState) (bytes : List Nat) : Prop :=
  s.i < s.fds.length
  ∧ (s.fds.getD s.i entryDefault).revents.pollin = true
  ∧ some s.i ≠ cfg.attachIndex
  ∧ (s.fds.getD s.i entryDefault).fd ≠ cfg.stdoutFd
  ∧ (s.fds.getD s.i entryDefault).fd ≠ cfg.stderrFd
  ∧ cfg.remote_base ≤ s.i
  ∧ (s.fds.getD s.i entryDefault).io = .ok bytes
  ∧ bytes ≠ []

instance (cfg : StdioCfg) (s : WalkState) : Decidable (isRemoteRemovalStep cfg s) := by
  unfold isRemoteRemovalStep
  infer_instance

instance (cfg : StdioCfg) (s : WalkState) (bytes : List Nat) :
    Decidable (isConsoleDataStep cfg s bytes) := by
  unfold isConsoleDataStep
  infer_instance

instance (cfg : StdioCfg) (s : WalkState) : Decidable (Inv cfg s) := by
  unfold Inv
  infer_instance

/-- The initial watch set of `handle_stdio` (src/runtime/stdio.rs lines
63–86): stdout at index 0, stderr at index 1, optionally the attach
listener, all with empty revents; no remote clients yet. -/
def handle_stdio_init (stdoutFd stderrFd : Nat) (attachFd : Option Nat)
    (workerfd_stdin : Option Nat) : WalkState :=
  { fds := [⟨stdoutFd, ⟨false, false⟩, .again, none⟩,
            ⟨stderrFd, ⟨false, false⟩, .again, none⟩]
        ++ (match attachFd with
            | some fd => [⟨fd, ⟨false, false⟩, .again, none⟩]
            | none => []),
    remote_sockets := [],
    workerfd_stdin := workerfd_stdin,
    stdinLog := [],
    i := 0 }

/-- The per-call constants matching `handle_stdio_init`. -/
def handle_stdio_cfg (stdoutFd stderrFd : Nat) (attachFd : Option Nat)
    (leave_stdin_open : Bool) : StdioCfg :=
  { stdoutFd := stdoutFd,
    stderrFd := stderrFd,
    attachIndex := match attachFd with | some _ => some 2 | none => none,
    remote_base := match attachFd with | some _ => 3 | none => 2,
    leave_stdin_open := leave_stdin_open }

/-! ## Log plugin host (src/log_plugin.rs, conmon-abi/src/lib.rs) -/

/-- The data of a resolved plugin's v1 vtable that `load` inspects,
together with the observable behaviour of the plugin's `init`: the
return code it produces and whether it leaves the out-handle null
(`conmon_log_plugin_v1`, conmon-abi/src/lib.rs lines 33–61). -/
structure VTableM where
  abi_version : Nat
  struct_size : Nat
  initRc : Int
  initHandleNull : Bool
deriving DecidableEq, Repr

/-- `size_of::<conmon_log_plugin_v1>()` on the 64-bit C ABI the plugin
boundary is compiled for: three `u32` fields (12 bytes), 4 bytes of
padding up to pointer alignment, three function pointers (24 bytes). -/
def sizeof_conmon_log_plugin_v1 : Nat := 40

/-- The FFI calls a plugin observes across one load/drop lifecycle. -/
inductive PluginEvent where
  | initCall
  | closeCall
  | libRelease
deriving DecidableEq, Repr

/-- `init` succeeded: the version/size checks passed, `init` returned
zero and produced a non-null handle (src/log_plugin.rs lines 100–139). -/
def init_succeeded (vt : VTableM) : Prop :=
  vt.abi_version = 1 ∧ sizeof_conmon_log_plugin_v1 ≤ vt.struct_size
    ∧ vt.initRc = 0 ∧ vt.initHandleNull = false

instance (vt : VTableM) : Decidable (init_succeeded vt) := by
  unfold init_succeeded
  infer_instance

/-- `LoadedLogPlugin::load` (src/log_plugin.rs lines 85–147) after the
library was resolved and the getter symbol returned the vtable `vt`:
validate `abi_version == 1` and `struct_size ≥ sizeof(vtable_v1)`, run
`init`, and fail if it returns nonzero or leaves the handle null. -/
def load_log_plugin (name_or_path : String) (vt : VTableM) :
    Except ConmonError Unit :=
  if vt.abi_version ≠ 1 then
    .error ⟨"Cannot load Log plugin " ++ name_or_path ++ ": ABI version mismatch", 1⟩
  else if vt.struct_size < sizeof_conmon_log_plugin_v1 then
    .error ⟨"Cannot load Log plugin " ++ name_or_path ++ ": vtable struct too small", 1⟩
  else if vt.initRc ≠ 0 ∨ vt.initHandleNull = true then
    .error ⟨"Cannot load Log plugin " ++ name_or_path ++ ": init failed", 1⟩
  else .ok ()

/-- The FFI call trace of a full load-and-drop lifecycle: on an early
validation failure the `Library` is dropped (released) without `init`
or `close` ever running; if `init` ran but failed, the library is
released without `close`; on success, `Drop for LoadedLogPlugin`
(src/log_plugin.rs lines 154–158) calls `close` in its body and the
`_lib` field is dropped afterwards, releasing the library. -/
def plugin_lifecycle (name_or_path : String) (vt : VTableM) : List PluginEvent :=
  if vt.abi_version ≠ 1 then [.libRelease]
  else if vt.struct_size < sizeof_conmon_log_plugin_v1 then [.libRelease]
  else if vt.initRc ≠ 0 ∨ vt.initHandleNull = true then [.initCall, .libRelease]
  else [.initCall, .closeCall, .libRelease]

/-- `DYLIB_EXT` (src/log_plugin.rs line 13). -/
def DYLIB_EXT : String := "so"

/-- `DEFAULT_LOG_PLUGIN_DIRS` (src/log_plugin.rs lines 16–19). -/
def DEFAULT_LOG_PLUGIN_DIRS : List String :=
  ["/usr/lib/conmon-v3/log_plugins", "/usr/local/lib/conmon-v3/log_plugins"]

/-- The filesystem as the resolver sees it: which paths answer true to
`Path::is_file()` and which to `Path::exists()`. -/
structure FsModel where
  files : List String
  existing : List String
deriving DecidableEq, Repr

/-- Trailing `/` separators, which Rust's `Path` normalizes away before
computing the parent. -/
def stripTrailingSlashes (s : String) : String :=
  ⟨(s.data.reverse.dropWhile (fun c => c = '/')).reverse⟩

/-- Embedding of
`matches!(p.parent(), Some(par) if !par.as_os_str().is_empty())`:
the path names a directory component, i.e. a `/` remains before the
final component. -/
def hasNonemptyParent (s : String) : Bool :=
  (stripTrailingSlashes s).data.contains '/'

/-- The final path component. -/
def lastComponent (s : String) : String :=
  ⟨(s.data.reverse.takeWhile (fun c => c ≠ '/')).reverse⟩

/-- Embedding of `p.extension().is_some_and(|ext| ext == "so")`: the
file name has extension `so`.  A leading `.` of the file name belongs
to the stem (hidden files), as in Rust. -/
def extensionIsSo (s : String) : Bool :=
  let fn := lastComponent (stripTrailingSlashes s)
  let core := if fn.data.head? = some '.' then (⟨fn.data.drop 1⟩ : String) else fn
  (".so").data.isSuffixOf core.data

/-- Rust `str::split(':')` on the character list (keeps empty pieces,
exactly as `split` does). -/
def splitCharsOn (sep : Char) : List Char → List (List Char)
  | [] => [[]]
  | c :: rest =>
    let r := splitCharsOn sep rest
    if c = sep then [] :: r
    else
      match r with
      | [] => [[c]]
      | h :: t => (c :: h) :: t

/-- `paths.split(':')` as the resolver uses it. -/
def splitOnColon (s : String) : List String :=
  (splitCharsOn ':' s.data).map (fun l => (⟨l⟩ : String))

/-- `PathBuf::join` on string paths. -/
def joinPath (dir cand : String) : String :=
  if dir = "" then cand
  else if dir.data.getLast? = some '/' then dir ++ cand
  else dir ++ "/" ++ cand

/-- `resolve_plugin_path` (src/log_plugin.rs lines 39–82): a name
containing a directory component or ending in the dylib extension is
treated as a path and accepted iff it exists; otherwise the directory
of the current executable, then each non-empty colon-separated entry of
`CONMON_LOG_PLUGIN_PATH`, then the built-in defaults are searched for
`lib<name>_log_plugin.<ext>`, first regular-file hit wins. -/
def resolve_plugin_path (fs : FsModel) (exe_dir : Option String)
    (plugin_path_env : Option String) (name_or_path : String) : Option String :=
  if hasNonemptyParent name_or_path || extensionIsSo name_or_path then
    if name_or_path ∈ fs.existing then some name_or_path else none
  else
    let search_dirs : List String :=
      (match exe_dir with | some d => [d] | none => [])
      ++ (match plugin_path_env with
          | some paths => (splitOnColon paths).filter (fun s => s ≠ "")
          | none => [])
      ++ DEFAULT_LOG_PLUGIN_DIRS
    let candidate := "lib" ++ name_or_path ++ "_log_plugin." ++ DYLIB_EXT
    search_dirs.findSome? (fun dir =>
      if joinPath dir candidate ∈ fs.files then some (joinPath dir candidate) else none)

/-- Modelled from the spec wording of the search order, for comparison
with the source embedding: the directory of the current executable,
then each non-empty colon-separated entry of `CONMON_LOG_PLUGIN_PATH`,
then the built-in defaults. -/
def plugin_search_dirs (exe_dir : Option String)
    (plugin_path_env : Option String) : List String :=
  (match exe_dir with | some d => [d] | none => [])
  ++ (match plugin_path_env with
      | some paths => (splitOnColon paths).filter (fun s => s ≠ "")
      | none => [])
  ++ ["/usr/lib/conmon-v3/log_plugins", "/usr/local/lib/conmon-v3/log_plugins"]

/-- The filename pattern stated by the spec: `lib<name>_log_plugin.<ext>`. -/
def plugin_candidate (name : String) : String :=
  "lib" ++ name ++ "_log_plugin.so"

/-- The resolution stage of `LoadedLogPlugin::load` (src/log_plugin.rs
lines 88–93): a failed resolution is the "not found" fatal error. -/
def load_log_plugin_resolve (fs : FsModel) (exe_dir : Option String)
    (plugin_path_env : Option String) (name_or_path : String) :
    Except ConmonError String :=
  match resolve_plugin_path fs exe_dir plugin_path_env name_or_path with
  | none => .error ⟨"Cannot load Log plugin " ++ name_or_path ++ ": not found", 1⟩
  | some p => .ok p

/-! ## Runtime argv construction (src/runtime/args.rs, src/commands) -/

/-- The fields of `CommonCfg` (src/cli.rs lines 219–228) that
`generate_runtime_args` reads. -/
structure CommonCfg where
  runtime : String
  cid : String
  runtime_args : List String
  runtime_opts : List String
  no_pivot : Bool
  no_new_keyring : Bool
deriving DecidableEq, Repr

/-- A `RuntimeArgsGenerator` (src/runtime/args.rs lines 7–12), by the
argument lists its two methods append.  (The generators in scope never
fail, so the error path is not modelled.) -/
structure ArgsGen where
  global_args : List String
  subcommand_args : List String
deriving DecidableEq, Repr

/-- `generate_runtime_args` (src/runtime/args.rs lines 17–54): the argv
built by the same sequence of pushes as the source. -/
def generate_runtime_args (o : CommonCfg) (args_gen : ArgsGen) : List String :=
  let argv : List String := []
  let argv := argv ++ [o.runtime]
  let argv := argv ++ args_gen.global_args
  let argv := argv ++ o.runtime_args
  let argv := argv ++ args_gen.subcommand_args
  let argv := argv ++ (if o.no_pivot then ["--no-pivot"] else [])
  let argv := argv ++ (if o.no_new_keyring then ["--no-new-keyring"] else [])
  let argv := argv ++ o.runtime_opts
  argv ++ [o.cid]

/-- The `Create` generator (src/commands/create.rs lines 85–103). -/
def createArgsGen (systemd_cgroup : Bool) (bundle container_pidfile : String) :
    ArgsGen :=
  { global_args := if systemd_cgroup then ["--systemd-cgroup"] else [],
    subcommand_args :=
      ["create", "--bundle", bundle, "--pid-file", container_pidfile] }

/-- The `Restore` generator (src/commands/restore.rs lines 23–45). -/
def restoreArgsGen (systemd_cgroup : Bool) (bundle container_pidfile : String) :
    ArgsGen :=
  { global_args := if systemd_cgroup then ["--systemd-cgroup"] else [],
    subcommand_args :=
      ["restore", "--bundle", bundle, "--pid-file", container_pidfile] }

/-- The `Exec` generator (src/commands/exec.rs lines 38–59). -/
def execArgsGen (container_pidfile exec_process_spec : String) : ArgsGen :=
  { global_args := [],
    subcommand_args :=
      ["exec", "--pid-file", container_pidfile,
       "--process", exec_process_spec, "--detach"] }

/-! ## Attach-socket parent directory (src/unix_socket.rs) -/

/-- `sizeof(sockaddr_un.sun_path)` on Linux, the value
`max_socket_path_len` returns (src/unix_socket.rs lines 195–198). -/
def SUN_PATH_LEN : Nat := 108

/-- `UnixSocket::socket_parent_dir` (src/unix_socket.rs lines 201–256).
The result carries the returned parent path and, when the
`<socket_dir>/<cuuid>` branch ran, the symlink it created as
`(link path, target)` — the source calls
`symlinkat(&self.bundle_path, AT_FDCWD, &new_base)` unconditionally in
that branch.  Bytes of the path are modelled by its characters (the
paths in scope are ASCII). -/
def socket_parent_dir (use_full_attach_path : Bool) (bundle_path : String)
    (socket_path : Option String) (cuuid : Option String) :
    Except ConmonError (String × Option (String × String)) :=
  let base_path : String :=
    if use_full_attach_path then bundle_path
    else
      match cuuid with
      | some cu =>
        match socket_path with
        | some sp => joinPath sp cu
        | none => ""
      | none => ""
  if base_path = "" then
    .error ⟨"Base path for socket cannot be determined", 1⟩
  else if use_full_attach_path then
    .ok (base_path, none)
  else
    let desired_len := SUN_PATH_LEN
    let bytes := base_path.data
    let bytes :=
      if bytes.length ≥ desired_len - 1 then
        (if bytes = [] then bytes else bytes.dropLast ++ ['\x00'])
      else bytes
    let new_base : String := ⟨bytes.takeWhile (fun b => b ≠ '\x00')⟩
    .ok (new_base, some (new_base, bundle_path))

/-- The attach socket path the session later derives from the parent
directory: `listen(Some(PathBuf::from("attach")), ..)` joins `attach`
onto it (src/runtime/session.rs lines 100–105). -/
def attach_socket_path (parent : String) : String :=
  joinPath parent "attach"

/-- A path fits in `sockaddr_un.sun_path` (terminating NUL included). -/
def fits_sun_path (p : String) : Prop :=
  p.data.length + 1 ≤ SUN_PATH_LEN

instance (p : String) : Decidable (fits_sun_path p) := by
  unfold fits_sun_path
  infer_instance

/-! # Theorems -/

/-! ## Helper lemmas -/

theorem write_all_fd_ne_eintr :
    ∀ (tr : List WriteRes) (l : Nat), write_all_fd tr l ≠ some (.error .eintr) := by
  intro tr
  induction tr with
  | nil => intro l; cases l <;> simp [write_all_fd]
  | cons r rest ih =>
    intro l
    cases l with
    | zero => simp [write_all_fd]
    | succ k =>
      cases r with
      | ok n =>
        cases n with
        | zero => simp [write_all_fd]
        | succ mm => simpa [write_all_fd] using ih _
      | err e =>
        cases e with
        | eintr => simpa [write_all_fd] using ih _
        | epipe => simp [write_all_fd]
        | eio => simp [write_all_fd]
        | eagain => simp [write_all_fd]
        | other n => simp [write_all_fd]

theorem digitChar10_ne_newline (d : Nat) (h : d < 10) : digitChar10 d ≠ '\n' := by
  interval_cases d <;> decide

theorem natDecRevAux_ne_newline (fuel : Nat) :
    ∀ (n : Nat), ∀ c ∈ natDecRevAux fuel n, c ≠ '\n' := by
  induction fuel with
  | zero => intro n; simp [natDecRevAux]
  | succ fuel ih =>
    intro n c hc
    by_cases h10 : n < 10
    · simp [natDecRevAux, h10] at hc
      subst hc
      exact digitChar10_ne_newline n h10
    · simp [natDecRevAux, h10] at hc
      rcases hc with rfl | hmem
      · exact digitChar10_ne_newline _ (Nat.mod_lt _ (by omega))
      · exact ih _ c hmem

theorem int_dec_ne_newline (i : Int) : ∀ c ∈ int_dec i, c ≠ '\n' := by
  intro c hc
  unfold int_dec at hc
  split at hc
  · rcases List.mem_cons.mp hc with rfl | hmem
    · decide
    · exact natDecRevAux_ne_newline _ _ c (List.mem_reverse.mp hmem)
  · exact natDecRevAux_ne_newline _ _ c (List.mem_reverse.mp hc)

theorem hexLower_ne_newline (n : Nat) (h : n < 16) : hexLower n ≠ '\n' := by
  interval_cases n <;> decide

theorem escape_char_ne_newline (c x : Char) (hx : x ∈ escape_char c) : x ≠ '\n' := by
  unfold escape_char at hx
  split_ifs at hx with h1 h2 h3 h4 h5 h6 h7 h8
  · simp at hx; rcases hx with rfl | rfl <;> decide
  · simp at hx; rcases hx with rfl | rfl <;> decide
  · simp at hx; rcases hx with rfl | rfl <;> decide
  · simp at hx; rcases hx with rfl | rfl <;> decide
  · simp at hx; rcases hx with rfl | rfl <;> decide
  · simp at hx; rcases hx with rfl | rfl <;> decide
  · simp at hx; rcases hx with rfl | rfl <;> decide
  · rintro rfl
    simp at hx
    rcases hx with h | h
    · exact hexLower_ne_newline _ (Nat.div_lt_of_lt_mul (by omega)) h.symm
    · exact hexLower_ne_newline _ (Nat.mod_lt _ (by norm_num)) h.symm
  · simp at hx
    subst hx
    intro hcon
    subst hcon
    exact h8 (by decide)

theorem render_json_value_ne_newline (v : Json) :
    ∀ c ∈ render_json_value v, c ≠ '\n' := by
  intro c hc
  cases v with
  | int i => exact int_dec_ne_newline i c hc
  | str s =>
    simp only [render_json_value] at hc
    rcases List.mem_cons.mp hc with rfl | hmem
    · decide
    · rcases List.mem_append.mp hmem with hmem | hmem
      · obtain ⟨l, hl, hcl⟩ := List.mem_flatten.mp hmem
        obtain ⟨d, _, rfl⟩ := List.mem_map.mp hl
        exact escape_char_ne_newline d c hcl
      · simp at hmem; subst hmem; decide

theorem render_json_member_ne_newline (kv : String × Json) :
    ∀ c ∈ render_json_member kv, c ≠ '\n' := by
  intro c hc
  unfold render_json_member at hc
  rcases List.mem_append.mp hc with hmem | hmem
  · exact render_json_value_ne_newline _ c hmem
  · rcases List.mem_cons.mp hmem with rfl | hmem
    · decide
    · exact render_json_value_ne_newline _ c hmem

theorem render_json_members_ne_newline (ps : List (String × Json)) :
    ∀ c ∈ render_json_members ps, c ≠ '\n' := by
  induction ps with
  | nil => simp [render_json_members]
  | cons kv rest ih =>
    cases rest with
    | nil =>
      intro c hc
      exact render_json_member_ne_newline kv c hc
    | cons kv2 rest2 =>
      intro c hc
      simp only [render_json_members] at hc
      rcases List.mem_append.mp hc with hmem | hmem
      · exact render_json_member_ne_newline kv c hmem
      · rcases List.mem_cons.mp hmem with rfl | hmem
        · decide
        · exact ih c hmem

theorem render_json_obj_ne_newline (ps : List (String × Json)) :
    ∀ c ∈ render_json_obj ps, c ≠ '\n' := by
  intro c hc
  unfold render_json_obj at hc
  rcases List.mem_cons.mp hc with rfl | hmem
  · decide
  · rcases List.mem_append.mp hmem with hmem | hmem
    · exact render_json_members_ne_newline ps c hmem
    · simp at hmem; subst hmem; decide

theorem sync_obj_no_message (d : Int) (v : Int) (e : Bool) (m : Option String)
    (hm : m = none ∨ m = some "") :
    sync_obj d m v e = [(sync_data_key v e, .int d)] := by
  rcases hm with rfl | rfl <;> simp [sync_obj, mapInsert]

theorem sync_obj_message_data (d : Int) (v : Int) (e : Bool) (s : String)
    (hv : v ≥ 1) (hs : s ≠ "") :
    sync_obj d (some s) v e = [("data", .int d), ("message", .str s)] := by
  simp only [sync_obj, sync_data_key, if_pos hv, if_neg hs]
  rfl

theorem sync_obj_message_exit_code (d : Int) (v : Int) (s : String)
    (hv : ¬ v ≥ 1) (hs : s ≠ "") :
    sync_obj d (some s) v true = [("exit_code", .int d), ("message", .str s)] := by
  simp only [sync_obj, sync_data_key, if_neg hv, if_pos rfl, if_neg hs]
  rfl

theorem sync_obj_message_pid (d : Int) (v : Int) (s : String)
    (hv : ¬ v ≥ 1) (hs : s ≠ "") :
    sync_obj d (some s) v false = [("message", .str s), ("pid", .int d)] := by
  simp only [sync_obj, sync_data_key, if_neg hv, if_neg hs, Bool.false_eq_true,
    ite_false]
  rfl

/-! ## C1: sync-pipe wire format -/

/-- C1: for every call to `write_or_close_sync_fd` with integer payload
`d`, optional message `m`, API version `v` and exec flag `e`, the bytes
written to the sync pipe are exactly one serialized JSON object
followed by a single `'\n'`; the object's integer key is `"data"` if
`v ≥ 1`, else `"exit_code"` if `e`, else `"pid"`, mapped to `d`; and
the object contains the key `"message"` (mapped to `m`) iff `m` is
supplied and non-empty. -/
theorem c1_sync_pipe_wire_format (d : Int) (m : Option String) (v : Int) (e : Bool) :
    (sync_pipe_line d m v e = render_json_obj (sync_obj d m v e) ++ ['\n'])
    ∧ (sync_pipe_line d m v e).count '\n' = 1
    ∧ (v ≥ 1 → sync_data_key v e = "data")
    ∧ (¬ v ≥ 1 → e = true → sync_data_key v e = "exit_code")
    ∧ (¬ v ≥ 1 → e = false → sync_data_key v e = "pid")
    ∧ objLookup (sync_data_key v e) (sync_obj d m v e) = some (.int d)
    ∧ (∀ s, m = some s → s ≠ "" →
        objLookup "message" (sync_obj d m v e) = some (.str s))
    ∧ ((m = none ∨ m = some "") → objLookup "message" (sync_obj d m v e) = none)
    ∧ (∀ kv ∈ sync_obj d m v e, kv.1 = sync_data_key v e ∨ kv.1 = "message") := by
  have hcount : (sync_pipe_line d m v e).count '\n' = 1 := by
    unfold sync_pipe_line
    rw [List.count_append,
      List.count_eq_zero.mpr (fun hmem => render_json_obj_ne_newline _ _ hmem rfl)]
    rfl
  have hkey : ∀ s, m = some s → s ≠ "" →
      (objLookup (sync_data_key v e) (sync_obj d m v e) = some (.int d)
        ∧ objLookup "message" (sync_obj d m v e) = some (.str s)
        ∧ ∀ kv ∈ sync_obj d m v e, kv.1 = sync_data_key v e ∨ kv.1 = "message") := by
    rintro s rfl hs
    by_cases hv : v ≥ 1
    · rw [sync_obj_message_data d v e s hv hs]
      simp [sync_data_key, hv, objLookup]
    · cases e
      · rw [sync_obj_message_pid d v s hv hs]
        simp [sync_data_key, hv, objLookup]
      · rw [sync_obj_message_exit_code d v s hv hs]
        simp [sync_data_key, hv, objLookup]
  refine ⟨rfl, hcount, ?_, ?_, ?_, ?_, ?_, ?_, ?_⟩
  · intro hv; simp [sync_data_key, hv]
  · rintro hv rfl; simp [sync_data_key, hv]
  · rintro hv rfl; simp [sync_data_key, hv]
  · rcases m with _ | s
    · rw [sync_obj_no_message d v e none (Or.inl rfl)]; simp [objLookup]
    · by_cases hs : s = ""
      · subst hs
        rw [sync_obj_no_message d v e (some "") (Or.inr rfl)]; simp [objLookup]
      · exact (hkey s rfl hs).1
  · intro s hm hs; exact ((hkey s hm hs).2).1
  · intro hm
    rw [sync_obj_no_message d v e m hm]
    have : sync_data_key v e ≠ "message" := by
      unfold sync_data_key
      split_ifs <;> decide
    simp [objLookup, this.symm]
  · rcases m with _ | s
    · rw [sync_obj_no_message d v e none (Or.inl rfl)]; simp
    · by_cases hs : s = ""
      · subst hs
        rw [sync_obj_no_message d v e (some "") (Or.inr rfl)]; simp
      · exact ((hkey s rfl hs).2).2

theorem c1_witness :
    ((sync_pipe_line 7 (some "ok") 0 true).count '\n' = 1)
    ∧ sync_data_key 0 true = "exit_code"
    ∧ sync_data_key 1 false = "data"
    ∧ sync_data_key 0 false = "pid"
    ∧ objLookup "exit_code" (sync_obj 7 (some "ok") 0 true) = some (.int 7)
    ∧ objLookup "message" (sync_obj 7 (some "ok") 0 true) = some (.str "ok")
    ∧ objLookup "message" (sync_obj 123 none 0 false) = none := by
  have h1 := c1_sync_pipe_wire_format 7 (some "ok") 0 true
  have h2 := c1_sync_pipe_wire_format 1 none 1 false
  have h3 := c1_sync_pipe_wire_format 123 none 0 false
  refine ⟨h1.2.1, h1.2.2.2.1 (by omega) rfl, h2.2.2.1 (by omega),
    h3.2.2.2.2.1 (by omega) rfl, ?_, ?_, ?_⟩
  · have := h1.2.2.2.2.2.1
    rwa [h1.2.2.2.1 (by omega) rfl] at this
  · exact h1.2.2.2.2.2.2.1 "ok" rfl (by decide)
  · exact h3.2.2.2.2.2.2.2.1 (Or.inl rfl)

/-! ## C2: sync-pipe write outcomes -/

/-- C2: for every call to `write_or_close_sync_fd`, if the underlying
write fails with `EPIPE` the function returns success with the fd
dropped; if the write fails with any error other than `EPIPE` (and
`EINTR`, which never escapes the retry loop) the function returns a
fatal error with code 1; on success the fd is retained.  Once the fd
has been dropped, the session's next sync-pipe event
(`write_exit_code` with `sync_pipe_fd = none`) attempts no further
write. -/
theorem c2_sync_fd_epipe_drop (fd : OwnedFdM) (d : Int) (m : Option String)
    (v : Int) (e : Bool) (trace : List WriteRes) (ec : Int) (es : String) :
    (write_all_fd trace (sync_pipe_line d m v e).length = some (.error .epipe) →
      write_or_close_sync_fd fd d m v e trace = some (.ok none))
    ∧ (∀ err, err ≠ Errno.epipe →
        write_all_fd trace (sync_pipe_line d m v e).length = some (.error err) →
        ∃ ce, write_or_close_sync_fd fd d m v e trace = some (.error ce) ∧ ce.code = 1)
    ∧ (write_all_fd trace (sync_pipe_line d m v e).length = some (.ok ()) →
        write_or_close_sync_fd fd d m v e trace = some (.ok (some fd)))
    ∧ write_all_fd trace (sync_pipe_line d m v e).length ≠ some (.error .eintr)
    ∧ write_exit_code none ec es v trace = some (.ok (none, false)) := by
  refine ⟨?_, ?_, ?_, write_all_fd_ne_eintr _ _, rfl⟩
  · intro h; simp [write_or_close_sync_fd, h]
  · intro err hne h
    refine ⟨⟨"Unable to send container stderr message to parent", 1⟩, ?_, rfl⟩
    cases err <;> simp_all [write_or_close_sync_fd]
  · intro h; simp [write_or_close_sync_fd, h]

theorem c2_witness :
    (write_or_close_sync_fd ⟨5, true⟩ 0 none 1 false [.err .epipe] = some (.ok none))
    ∧ (∃ ce, write_or_close_sync_fd ⟨5, true⟩ 0 none 1 false [.err .eio]
        = some (.error ce) ∧ ce.code = 1)
    ∧ (write_exit_code none 0 "" 1 [] = some (.ok (none, false))) := by
  have h := c2_sync_fd_epipe_drop ⟨5, true⟩ 0 none 1 false [.err .epipe] 0 ""
  have h2 := c2_sync_fd_epipe_drop ⟨5, true⟩ 0 none 1 false [.err .eio] 0 ""
  exact ⟨h.1 (by rfl), h2.2.1 .eio (by simp) (by rfl), h.2.2.2.2⟩

/-! ## C3: pipe fd adoption from the environment -/

/-- C3: for every environment variable name, `get_pipe_fd_from_env_with`
returns no fd (without error) when the variable is absent; returns a
fatal error with code 1 whose message contains "not an integer" when
the value does not parse as an `i32`; and when the value parses (and
`fcntl` succeeds) returns an owned fd with the same fd number and with
`FD_CLOEXEC` set. -/
theorem c3_get_pipe_fd_from_env (envname : String) (v : VarResult) (fcntl_ok : Bool) :
    (v = .notPresent → get_pipe_fd_from_env_with envname v fcntl_ok = .ok none)
    ∧ (∀ s, v = .present s → parse_i32 s = none →
        ∃ e, get_pipe_fd_from_env_with envname v fcntl_ok = .error e
          ∧ e.code = 1 ∧ strContainsSub e.msg "not an integer")
    ∧ (∀ s n, v = .present s → parse_i32 s = some n → fcntl_ok = true →
        get_pipe_fd_from_env_with envname v fcntl_ok
          = .ok (some { num := n, cloexec := true })) := by
  refine ⟨?_, ?_, ?_⟩
  · rintro rfl; rfl
  · rintro s rfl hp
    refine ⟨⟨"unable to parse " ++ envname ++ " : " ++ s ++ " not an integer", 1⟩,
      by simp [get_pipe_fd_from_env_with, hp], rfl, ?_⟩
    refine ⟨("unable to parse " ++ envname ++ " : " ++ s ++ " ").data, [], ?_⟩
    have hsplit : (" not an integer" : String).data
        = (" " : String).data ++ ("not an integer" : String).data := rfl
    have hjoin : ("unable to parse " ++ envname ++ " : " ++ s ++ " not an integer" : String)
        = "unable to parse " ++ envname ++ " : " ++ s ++ " " ++ "not an integer" := by
      have : (" not an integer" : String) = " " ++ "not an integer" := rfl
      rw [this, ← String.append_assoc]
    rw [hjoin]
    simp [String.data_append]
  · rintro s n rfl hp hf
    simp [get_pipe_fd_from_env_with, hp, hf]

theorem c3_witness :
    (get_pipe_fd_from_env_with "_OCI_SYNCPIPE" .notPresent true = .ok none)
    ∧ (∃ e, get_pipe_fd_from_env_with "_OCI_SYNCPIPE" (.present "abc") true = .error e
        ∧ e.code = 1 ∧ strContainsSub e.msg "not an integer")
    ∧ (get_pipe_fd_from_env_with "_OCI_SYNCPIPE" (.present "5") true
        = .ok (some { num := 5, cloexec := true })) := by
  refine ⟨(c3_get_pipe_fd_from_env "_OCI_SYNCPIPE" .notPresent true).1 rfl,
    (c3_get_pipe_fd_from_env "_OCI_SYNCPIPE" (.present "abc") true).2.1 "abc" rfl (by decide),
    (c3_get_pipe_fd_from_env "_OCI_SYNCPIPE" (.present "5") true).2.2 "5" 5 rfl (by decide) rfl⟩

/-! ## Multiplexer helper lemmas -/

theorem swapRemove_getElem? {α : Type} (l : List α) (i : Nat) (hi : i < l.length) (j : Nat) :
    (swapRemove l i)[j]? =
      if j < l.length - 1 then (if i = j then l[l.length - 1]? else l[j]?)
      else none := by
  unfold swapRemove
  split
  · next heq =>
    rw [List.getLast?_eq_none_iff] at heq
    subst heq
    simp at hi
  · next x heq =>
    rw [List.dropLast_eq_take, List.getElem?_take]
    simp only [List.length_set]
    by_cases hj : j < l.length - 1
    · rw [if_pos hj, if_pos hj, List.getElem?_set]
      have hx : l[l.length - 1]? = some x := by
        rw [← List.getLast?_eq_getElem?, heq]
      by_cases hij : i = j
      · subst hij
        rw [if_pos rfl, if_pos hi, hx]
        simp
      · rw [if_neg hij, if_neg hij]
    · rw [if_neg hj, if_neg hj]

theorem swapRemove_length {α : Type} (l : List α) (i : Nat) (hi : i < l.length) :
    (swapRemove l i).length = l.length - 1 := by
  unfold swapRemove
  split
  · next heq =>
    rw [List.getLast?_eq_none_iff] at heq
    subst heq
    simp at hi
  · next x heq => simp

theorem swapRemove_map {α β : Type} (f : α → β) (l : List α) (i : Nat)
    (hi : i < l.length) :
    (swapRemove l i).map f = swapRemove (l.map f) i := by
  apply List.ext_getElem?
  intro n
  rw [List.getElem?_map, swapRemove_getElem? l i hi n,
    swapRemove_getElem? (l.map f) i (by simpa using hi) n]
  simp only [List.length_map]
  by_cases hn : n < l.length - 1
  · rw [if_pos hn, if_pos hn]
    by_cases hin : i = n
    · rw [if_pos hin, if_pos hin, List.getElem?_map]
    · rw [if_neg hin, if_neg hin, List.getElem?_map]
  · rw [if_neg hn, if_neg hn]
    rfl

theorem swapRemove_drop {α : Type} (l : List α) (base i : Nat)
    (hb : base ≤ i) (hi : i < l.length) :
    (swapRemove l i).drop base = swapRemove (l.drop base) (i - base) := by
  apply List.ext_getElem?
  intro n
  rw [List.getElem?_drop, swapRemove_getElem? l i hi,
    swapRemove_getElem? (l.drop base) (i - base) (by simp; omega)]
  simp only [List.length_drop]
  by_cases hn : n < l.length - base - 1
  · have h1 : base + n < l.length - 1 := by omega
    rw [if_pos h1, if_pos hn]
    by_cases hin : i - base = n
    · have h2 : i = base + n := by omega
      rw [if_pos h2, if_pos hin, List.getElem?_drop]
      congr 1
      omega
    · have h2 : ¬ i = base + n := by omega
      rw [if_neg h2, if_neg hin, List.getElem?_drop]
  · have h1 : ¬ base + n < l.length - 1 := by omega
    rw [if_neg h1, if_neg hn]

theorem applyRound_map_fd (l : List Entry) (infos : List RoundInfo) :
    (applyRound l infos).map Entry.fd = l.map Entry.fd := by
  induction l generalizing infos with
  | nil => simp [applyRound]
  | cons e es ih =>
    cases infos with
    | nil => simp [applyRound]
    | cons inf infs => simp [applyRound, ih]

theorem applyRound_length (l : List Entry) (infos : List RoundInfo) :
    (applyRound l infos).length = l.length := by
  have h := congrArg List.length (applyRound_map_fd l infos)
  simpa using h

theorem setRound_preserves_inv (cfg : StdioCfg) (s : WalkState)
    (infos : List RoundInfo) (h : Inv cfg s) : Inv cfg (setRound s infos) := by
  obtain ⟨h1, h2⟩ := h
  constructor
  · show cfg.remote_base ≤ (applyRound s.fds infos).length
    rw [applyRound_length]
    exact h1
  · show ((applyRound s.fds infos).drop cfg.remote_base).map Entry.fd = _
    rw [List.map_drop, applyRound_map_fd, ← List.map_drop, h2]
    simp [setRound]

/-- Exhaustive shape analysis of a `cont` step of the walk: it either
advances the index leaving all tables alone, accepts a client (pushing
onto both vectors), forwards console bytes to an open stdin, or
swap-removes a remote from both vectors without advancing the index. -/
theorem step_cont_shape (cfg : StdioCfg) (s s' : WalkState)
    (hst : step cfg s = .cont s') :
    (s'.fds = s.fds ∧ s'.remote_sockets = s.remote_sockets
        ∧ s'.workerfd_stdin = s.workerfd_stdin ∧ s'.stdinLog = s.stdinLog
        ∧ s'.i = s.i + 1)
    ∨ (∃ remote, s'.fds = s.fds ++ [⟨remote.fd, ⟨false, false⟩, .again, none⟩]
        ∧ s'.remote_sockets = s.remote_sockets ++ [remote]
        ∧ s'.workerfd_stdin = s.workerfd_stdin ∧ s'.stdinLog = s.stdinLog
        ∧ s'.i = s.i + 1)
    ∨ (∃ bytes w, s.workerfd_stdin = some w ∧ bytes ≠ []
        ∧ s'.fds = s.fds ∧ s'.remote_sockets = s.remote_sockets
        ∧ s'.workerfd_stdin = s.workerfd_stdin
        ∧ s'.stdinLog = s.stdinLog ++ bytes ∧ s'.i = s.i + 1)
    ∨ (∃ remote, cfg.remote_base ≤ s.i ∧ s.i < s.fds.length
        ∧ s.remote_sockets.get? (s.i - cfg.remote_base) = some remote
        ∧ s'.fds = swapRemove s.fds s.i
        ∧ s'.remote_sockets = swapRemove s.remote_sockets (s.i - cfg.remote_base)
        ∧ s'.workerfd_stdin
            = (if remote.socket_type = .console ∧ cfg.leave_stdin_open = false
               then none else s.workerfd_stdin)
        ∧ s'.stdinLog = s.stdinLog ∧ s'.i = s.i) := by
  unfold step at hst
  by_cases hlen : s.i < s.fds.length
  swap
  · rw [if_neg hlen] at hst; simp at hst
  rw [if_pos hlen] at hst
  simp only [] at hst
  by_cases hin : (s.fds.getD s.i entryDefault).revents.pollin = true
  swap
  · rw [if_neg hin] at hst
    by_cases hup : (s.fds.getD s.i entryDefault).revents.pollhup = true
    · rw [if_pos hup] at hst; simp at hst
    · rw [if_neg hup] at hst
      cases hst
      exact Or.inl ⟨rfl, rfl, rfl, rfl, rfl⟩
  rw [if_pos hin] at hst
  by_cases hatt : some s.i = cfg.attachIndex
  · rw [if_pos hatt] at hst
    cases hacc : (s.fds.getD s.i entryDefault).acceptRes with
    | some remote =>
      simp only [hacc] at hst
      cases hst
      exact Or.inr (Or.inl ⟨remote, rfl, rfl, rfl, rfl, rfl⟩)
    | none =>
      simp only [hacc] at hst
      cases hst
      exact Or.inl ⟨rfl, rfl, rfl, rfl, rfl⟩
  rw [if_neg hatt] at hst
  by_cases hstd : (s.fds.getD s.i entryDefault).fd = cfg.stdoutFd
      ∨ (s.fds.getD s.i entryDefault).fd = cfg.stderrFd
  · rw [if_pos hstd] at hst
    cases hio : (s.fds.getD s.i entryDefault).io with
    | ok bytes =>
      simp only [hio] at hst
      by_cases hemp : bytes.isEmpty = true
      · rw [if_pos hemp] at hst; simp at hst
      · rw [if_neg hemp] at hst
        cases hst
        exact Or.inl ⟨rfl, rfl, rfl, rfl, rfl⟩
    | again =>
      simp only [hio] at hst
      cases hst
      exact Or.inl ⟨rfl, rfl, rfl, rfl, rfl⟩
    | fatal => simp only [hio] at hst; simp at hst
  rw [if_neg hstd] at hst
  by_cases hbase : cfg.remote_base ≤ s.i
  swap
  · rw [if_neg hbase] at hst
    cases hst
    exact Or.inl ⟨rfl, rfl, rfl, rfl, rfl⟩
  rw [if_pos hbase] at hst
  cases hio : (s.fds.getD s.i entryDefault).io with
  | ok bytes =>
    simp only [hio] at hst
    by_cases hemp : bytes.isEmpty = true
    · rw [if_pos hemp] at hst
      cases hget : s.remote_sockets.get? (s.i - cfg.remote_base) with
      | none => simp only [hget] at hst; simp at hst
      | some remote =>
        simp only [hget] at hst
        cases hst
        exact Or.inr (Or.inr (Or.inr
          ⟨remote, hbase, hlen, rfl, rfl, rfl, rfl, rfl, rfl⟩))
    · rw [if_neg hemp] at hst
      cases hget : s.remote_sockets.get? (s.i - cfg.remote_base) with
      | none => simp only [hget] at hst; simp at hst
      | some remote =>
        simp only [hget] at hst
        cases hrt : remote.socket_type with
        | console =>
          simp only [hrt] at hst
          cases hwf : s.workerfd_stdin with
          | some w =>
            simp only [hwf] at hst
            cases hst
            exact Or.inr (Or.inr (Or.inl
              ⟨bytes, w, rfl, by simpa using hemp, rfl, rfl, rfl, rfl, rfl⟩))
          | none =>
            simp only [hwf] at hst
            cases hst
            exact Or.inl ⟨rfl, rfl, rfl, rfl, rfl⟩
        | notify =>
          simp only [hrt] at hst
          cases hst
          exact Or.inl ⟨rfl, rfl, rfl, rfl, rfl⟩
  | again =>
    simp only [hio] at hst
    cases hst
    exact Or.inl ⟨rfl, rfl, rfl, rfl, rfl⟩
  | fatal =>
    simp only [hio] at hst
    cases hget : s.remote_sockets.get? (s.i - cfg.remote_base) with
    | none => simp only [hget] at hst; simp at hst
    | some remote =>
      simp only [hget] at hst
      cases hst
      exact Or.inr (Or.inr (Or.inr
        ⟨remote, hbase, hlen, rfl, rfl, rfl, rfl, rfl, rfl⟩))

theorem step_preserves_inv (cfg : StdioCfg) (s s' : WalkState)
    (hst : step cfg s = .cont s') (hInv : Inv cfg s) : Inv cfg s' := by
  obtain ⟨hb, hmap⟩ := hInv
  rcases step_cont_shape cfg s s' hst with
    ⟨h1, h2, h3, h4, h5⟩
    | ⟨remote, h1, h2, h3, h4, h5⟩
    | ⟨bytes, w, hwf, hne, h1, h2, h3, h4, h5⟩
    | ⟨remote, hbase, hlen, hget, h1, h2, h3, h4, h5⟩
  · exact ⟨h1 ▸ hb, by rw [h1, h2]; exact hmap⟩
  · refine ⟨?_, ?_⟩
    · rw [h1]; simp only [List.length_append, List.length_cons, List.length_nil]; omega
    · rw [h1, h2, List.drop_append_of_le_length hb]
      simp [hmap]
  · exact ⟨h1 ▸ hb, by rw [h1, h2]; exact hmap⟩
  · have hrget := List.get?_eq_some.mp hget
    obtain ⟨hrlt, -⟩ := hrget
    refine ⟨?_, ?_⟩
    · rw [h1, swapRemove_length s.fds s.i hlen]; omega
    · rw [h1, h2, swapRemove_drop s.fds cfg.remote_base s.i hbase hlen,
        swapRemove_map Entry.fd (s.fds.drop cfg.remote_base) (s.i - cfg.remote_base)
          (by simp only [List.length_drop]; omega),
        swapRemove_map RemoteSock.fd s.remote_sockets (s.i - cfg.remote_base) hrlt,
        hmap]

/-- Forward evaluation of the walk on a remote EOF/error: both vectors
are swap-removed at the corresponding indices, the stdin write end is
dropped exactly when the removed client was a Console client and
`leave_stdin_open` is false, and the index does not advance. -/
theorem step_removal_eval (cfg : StdioCfg) (s : WalkState) (remote : RemoteSock)
    (hrem : isRemoteRemovalStep cfg s)
    (hget : s.remote_sockets.get? (s.i - cfg.remote_base) = some remote) :
    step cfg s = .cont { s with
      remote_sockets := swapRemove s.remote_sockets (s.i - cfg.remote_base),
      fds := swapRemove s.fds s.i,
      workerfd_stdin :=
        if remote.socket_type = .console ∧ cfg.leave_stdin_open = false
        then none else s.workerfd_stdin } := by
  obtain ⟨hlen, hin, hatt, hso, hse, hbase, hio⟩ := hrem
  have hget2 : s.remote_sockets[s.i - cfg.remote_base]? = some remote := by
    rw [← List.get?_eq_getElem?]; exact hget
  unfold step
  rw [if_pos hlen]
  simp only []
  rw [if_pos hin, if_neg hatt, if_neg (not_or.mpr ⟨hso, hse⟩), if_pos hbase]
  rw [List.getD_eq_getElem?_getD] at hio
  rcases hio with hio | hio <;> simp [hio, hget, hget2]

/-- Forward evaluation of the walk on non-empty console-client data
with an open container stdin: the bytes are forwarded and the index
advances; the tables and the stdin fd are unchanged. -/
theorem step_console_data_eval (cfg : StdioCfg) (s : WalkState) (bytes : List Nat)
    (w : Nat) (remote : RemoteSock)
    (hdat : isConsoleDataStep cfg s bytes)
    (hget : s.remote_sockets.get? (s.i - cfg.remote_base) = some remote)
    (hcons : remote.socket_type = .console)
    (hwf : s.workerfd_stdin = some w) :
    step cfg s = .cont { s with stdinLog := s.stdinLog ++ bytes, i := s.i + 1 } := by
  obtain ⟨hlen, hin, hatt, hso, hse, hbase, hio, hne⟩ := hdat
  have hget2 : s.remote_sockets[s.i - cfg.remote_base]? = some remote := by
    rw [← List.get?_eq_getElem?]; exact hget
  unfold step
  rw [if_pos hlen]
  simp only []
  rw [if_pos hin, if_neg hatt, if_neg (not_or.mpr ⟨hso, hse⟩), if_pos hbase]
  rw [List.getD_eq_getElem?_getD] at hio
  simp [hio, hget, hget2, hcons, hwf, hne]

/-- A `cont` step keeps a closed stdin closed and forwards nothing. -/
theorem step_stdin_none (cfg : StdioCfg) (s s' : WalkState)
    (hst : step cfg s = .cont s') (hnone : s.workerfd_stdin = none) :
    s'.workerfd_stdin = none ∧ s'.stdinLog = s.stdinLog := by
  rcases step_cont_shape cfg s s' hst with
    ⟨_, _, h3, h4, _⟩
    | ⟨r, _, _, h3, h4, _⟩
    | ⟨b, w, hwf, _, _, _, _, _, _⟩
    | ⟨r, _, _, _, _, _, h3, h4, _⟩
  · exact ⟨h3 ▸ hnone, h4⟩
  · exact ⟨h3 ▸ hnone, h4⟩
  · rw [hnone] at hwf; cases hwf
  · refine ⟨?_, h4⟩
    rw [h3, hnone, ite_self]

/-- Once the container stdin write end has been dropped, no reachable
state of the event loop re-opens it or forwards any further bytes. -/
theorem sessReach_stdin_none (cfg : StdioCfg) (s s' : WalkState)
    (hreach : sessReach cfg s s') (hnone : s.workerfd_stdin = none) :
    s'.workerfd_stdin = none ∧ s'.stdinLog = s.stdinLog := by
  induction hreach with
  | refl => exact ⟨hnone, rfl⟩
  | tail hr hstep ih =>
    obtain ⟨ih1, ih2⟩ := ih
    rcases hstep with hst | ⟨infos, hst, rfl⟩
    · have h := step_stdin_none cfg _ _ hst ih1
      exact ⟨h.1, h.2.trans ih2⟩
    · exact ⟨ih1, ih2⟩

/-! ## C5: walk-index/table correspondence under swap-remove -/

/-- C5: throughout the walk, the correspondence
`fds[i].fd = remote_sockets[i - remote_base].fd` holds for every index
`i ≥ remote_base` (it holds at entry and is preserved by every loop
transition), and a swap-removed client is removed from both vectors by
the matching `swap_remove` with the walk index left unchanged, so the
entry swapped into position `i` is processed next. -/
theorem c5_walk_swap_invariant (cfg : StdioCfg) (s s' : WalkState)
    (o e : Nat) (a : Option Nat) (w : Option Nat) (lv : Bool) :
    Inv (handle_stdio_cfg o e a lv) (handle_stdio_init o e a w)
    ∧ (sessStep cfg s s' → Inv cfg s → Inv cfg s')
    ∧ (Inv cfg s → ∀ k, cfg.remote_base ≤ k → k < s.fds.length →
        (s.fds.getD k entryDefault).fd
          = (s.remote_sockets.getD (k - cfg.remote_base) ⟨.console, 0⟩).fd)
    ∧ (Inv cfg s → isRemoteRemovalStep cfg s →
        ∃ remote, s.remote_sockets.get? (s.i - cfg.remote_base) = some remote
          ∧ step cfg s = .cont { s with
              remote_sockets := swapRemove s.remote_sockets (s.i - cfg.remote_base),
              fds := swapRemove s.fds s.i,
              workerfd_stdin :=
                if remote.socket_type = .console ∧ cfg.leave_stdin_open = false
                then none else s.workerfd_stdin }) := by
  refine ⟨?_, ?_, ?_, ?_⟩
  · cases a <;>
      exact ⟨by simp [handle_stdio_cfg, handle_stdio_init],
        by simp [handle_stdio_cfg, handle_stdio_init]⟩
  · intro hstep hInv
    rcases hstep with hst | ⟨infos, hst, rfl⟩
    · exact step_preserves_inv cfg s s' hst hInv
    · exact setRound_preserves_inv cfg s infos hInv
  · rintro ⟨hb, hmap⟩ k hk1 hk2
    have h := congrArg (fun t => t[k - cfg.remote_base]?) hmap
    simp only [List.getElem?_map, List.getElem?_drop] at h
    have hbk : cfg.remote_base + (k - cfg.remote_base) = k := by omega
    rw [hbk] at h
    have hrlen : s.remote_sockets.length = s.fds.length - cfg.remote_base := by
      have hl := congrArg List.length hmap
      simpa using hl.symm
    have hklt : k - cfg.remote_base < s.remote_sockets.length := by omega
    rw [List.getElem?_eq_getElem hk2, List.getElem?_eq_getElem hklt] at h
    simp only [Option.map_some'] at h
    rw [List.getD_eq_getElem s.fds entryDefault hk2,
      List.getD_eq_getElem s.remote_sockets _ hklt]
    exact Option.some.inj h
  · rintro ⟨hb, hmap⟩ hrem
    have hrlen : s.remote_sockets.length = s.fds.length - cfg.remote_base := by
      have hl := congrArg List.length hmap
      simpa using hl.symm
    have hlt : s.i - cfg.remote_base < s.remote_sockets.length := by
      obtain ⟨hlen, -, -, -, -, hbase, -⟩ := hrem
      omega
    refine ⟨s.remote_sockets.get ⟨s.i - cfg.remote_base, hlt⟩,
      List.get?_eq_get hlt, step_removal_eval cfg s _ hrem (List.get?_eq_get hlt)⟩

theorem c5_witness :
    Inv (handle_stdio_cfg 0 1 (some 6) false) (handle_stdio_init 0 1 (some 6) (some 5))
    ∧ Inv (⟨0, 1, none, 2, false⟩ : StdioCfg)
        { fds := [⟨0, ⟨false, false⟩, .again, none⟩, ⟨1, ⟨false, false⟩, .again, none⟩],
          remote_sockets := [], workerfd_stdin := none, stdinLog := [], i := 2 }
    ∧ (([⟨0, ⟨false, false⟩, .again, none⟩, ⟨1, ⟨false, false⟩, .again, none⟩,
          ⟨7, ⟨true, false⟩, .ok [], none⟩] : List Entry).getD 2 entryDefault).fd
        = (([⟨.console, 7⟩] : List RemoteSock).getD 0 ⟨.console, 0⟩).fd
    ∧ (∃ remote,
        ([⟨.console, 7⟩] : List RemoteSock).get? 0 = some remote
          ∧ step (⟨0, 1, none, 2, false⟩ : StdioCfg)
              { fds := [⟨0, ⟨false, false⟩, .again, none⟩, ⟨1, ⟨false, false⟩, .again, none⟩,
                  ⟨7, ⟨true, false⟩, .ok [], none⟩],
                remote_sockets := [⟨.console, 7⟩], workerfd_stdin := some 5,
                stdinLog := [], i := 2 }
            = .cont { fds := swapRemove [⟨0, ⟨false, false⟩, .again, none⟩,
                        ⟨1, ⟨false, false⟩, .again, none⟩, ⟨7, ⟨true, false⟩, .ok [], none⟩] 2,
                      remote_sockets := swapRemove [⟨.console, 7⟩] 0,
                      workerfd_stdin := if remote.socket_type = .console ∧ false = false
                        then none else some 5,
                      stdinLog := [], i := 2 }) := by
  refine ⟨?_, ?_, ?_, ?_⟩
  · exact (c5_walk_swap_invariant (⟨0, 1, none, 2, false⟩ : StdioCfg)
      (handle_stdio_init 0 1 (some 6) (some 5)) (handle_stdio_init 0 1 (some 6) (some 5))
      0 1 (some 6) (some 5) false).1
  · exact (c5_walk_swap_invariant (⟨0, 1, none, 2, false⟩ : StdioCfg)
      { fds := [⟨0, ⟨false, false⟩, .again, none⟩, ⟨1, ⟨false, false⟩, .again, none⟩,
          ⟨7, ⟨true, false⟩, .ok [], none⟩],
        remote_sockets := [⟨.console, 7⟩], workerfd_stdin := some 5,
        stdinLog := [], i := 2 }
      { fds := [⟨0, ⟨false, false⟩, .again, none⟩, ⟨1, ⟨false, false⟩, .again, none⟩],
        remote_sockets := [], workerfd_stdin := none, stdinLog := [], i := 2 }
      0 1 none none false).2.1 (Or.inl (by rfl)) (by decide)
  · exact (c5_walk_swap_invariant (⟨0, 1, none, 2, false⟩ : StdioCfg)
      { fds := [⟨0, ⟨false, false⟩, .again, none⟩, ⟨1, ⟨false, false⟩, .again, none⟩,
          ⟨7, ⟨true, false⟩, .ok [], none⟩],
        remote_sockets := [⟨.console, 7⟩], workerfd_stdin := some 5,
        stdinLog := [], i := 2 }
      { fds := [], remote_sockets := [], workerfd_stdin := none, stdinLog := [], i := 0 }
      0 1 none none false).2.2.1 (by decide) 2 (by decide) (by decide)
  · exact (c5_walk_swap_invariant (⟨0, 1, none, 2, false⟩ : StdioCfg)
      { fds := [⟨0, ⟨false, false⟩, .again, none⟩, ⟨1, ⟨false, false⟩, .again, none⟩,
          ⟨7, ⟨true, false⟩, .ok [], none⟩],
        remote_sockets := [⟨.console, 7⟩], workerfd_stdin := some 5,
        stdinLog := [], i := 2 }
      { fds := [], remote_sockets := [], workerfd_stdin := none, stdinLog := [], i := 0 }
      0 1 none none false).2.2.2 (by decide) (by decide)

/-! ## C4: leave_stdin_open semantics -/

/-- C4: with `leave_stdin_open = false`, processing a Console client's
EOF or fatal recv error drops the container stdin write end; once
dropped it stays dropped across every later loop transition and no
later Console client's bytes are forwarded to the container stdin.
With `leave_stdin_open = true` the stdin write end is kept by such a
removal, and Console bytes are still forwarded while the stdin end is
held. -/
theorem c4_leave_stdin_open (cfg : StdioCfg) (s s' : WalkState)
    (bytes : List Nat) (w : Nat) (remote : RemoteSock) :
    (cfg.leave_stdin_open = false → isRemoteRemovalStep cfg s →
      s.remote_sockets.get? (s.i - cfg.remote_base) = some remote →
      remote.socket_type = .console →
      step cfg s = .cont s' → s'.workerfd_stdin = none)
    ∧ (s.workerfd_stdin = none → sessReach cfg s s' →
      s'.workerfd_stdin = none ∧ s'.stdinLog = s.stdinLog)
    ∧ (cfg.leave_stdin_open = true → isRemoteRemovalStep cfg s →
      s.remote_sockets.get? (s.i - cfg.remote_base) = some remote →
      step cfg s = .cont s' → s'.workerfd_stdin = s.workerfd_stdin)
    ∧ (isConsoleDataStep cfg s bytes →
      s.remote_sockets.get? (s.i - cfg.remote_base) = some remote →
      remote.socket_type = .console → s.workerfd_stdin = some w →
      step cfg s = .cont s' →
      s'.stdinLog = s.stdinLog ++ bytes ∧ s'.workerfd_stdin = s.workerfd_stdin) := by
  refine ⟨?_, ?_, ?_, ?_⟩
  · intro hlv hrem hget hcons hst
    rw [step_removal_eval cfg s remote hrem hget] at hst
    injection hst with h
    subst h
    simp [hcons, hlv]
  · exact fun hn hr => sessReach_stdin_none cfg s s' hr hn
  · intro hlv hrem hget hst
    rw [step_removal_eval cfg s remote hrem hget] at hst
    injection hst with h
    subst h
    simp [hlv]
  · intro hdat hget hcons hwf hst
    rw [step_console_data_eval cfg s bytes w remote hdat hget hcons hwf] at hst
    injection hst with h
    subst h
    exact ⟨rfl, rfl⟩

theorem c4_witness :
    (∃ s', step (⟨0, 1, none, 2, false⟩ : StdioCfg)
        { fds := [⟨0, ⟨false, false⟩, .again, none⟩, ⟨1, ⟨false, false⟩, .again, none⟩,
            ⟨7, ⟨true, false⟩, .ok [], none⟩],
          remote_sockets := [⟨.console, 7⟩], workerfd_stdin := some 5,
          stdinLog := [], i := 2 } = .cont s'
        ∧ s'.workerfd_stdin = none)
    ∧ (∃ s', sessReach (⟨0, 1, none, 2, false⟩ : StdioCfg)
        { fds := [], remote_sockets := [], workerfd_stdin := none,
          stdinLog := [3], i := 0 } s'
        ∧ s'.workerfd_stdin = none ∧ s'.stdinLog = [3])
    ∧ (∃ s', step (⟨0, 1, none, 2, true⟩ : StdioCfg)
        { fds := [⟨0, ⟨false, false⟩, .again, none⟩, ⟨1, ⟨false, false⟩, .again, none⟩,
            ⟨7, ⟨true, false⟩, .ok [], none⟩],
          remote_sockets := [⟨.console, 7⟩], workerfd_stdin := some 5,
          stdinLog := [], i := 2 } = .cont s'
        ∧ s'.workerfd_stdin = some 5)
    ∧ (∃ s', step (⟨0, 1, none, 2, false⟩ : StdioCfg)
        { fds := [⟨0, ⟨false, false⟩, .again, none⟩, ⟨1, ⟨false, false⟩, .again, none⟩,
            ⟨7, ⟨true, false⟩, .ok [42], none⟩],
          remote_sockets := [⟨.console, 7⟩], workerfd_stdin := some 5,
          stdinLog := [], i := 2 } = .cont s'
        ∧ s'.stdinLog = [42] ∧ s'.workerfd_stdin = some 5) := by
  refine ⟨⟨_, rfl, ?_⟩, ⟨_, Relation.ReflTransGen.refl, ?_, ?_⟩, ⟨_, rfl, ?_⟩, ⟨_, rfl, ?_, ?_⟩⟩
  · exact (c4_leave_stdin_open (⟨0, 1, none, 2, false⟩ : StdioCfg)
      { fds := [⟨0, ⟨false, false⟩, .again, none⟩, ⟨1, ⟨false, false⟩, .again, none⟩,
          ⟨7, ⟨true, false⟩, .ok [], none⟩],
        remote_sockets := [⟨.console, 7⟩], workerfd_stdin := some 5,
        stdinLog := [], i := 2 } _ [] 0 ⟨.console, 7⟩).1
      rfl (by decide) rfl rfl rfl
  · exact ((c4_leave_stdin_open (⟨0, 1, none, 2, false⟩ : StdioCfg)
      { fds := [], remote_sockets := [], workerfd_stdin := none,
        stdinLog := [3], i := 0 }
      { fds := [], remote_sockets := [], workerfd_stdin := none,
        stdinLog := [3], i := 0 } [] 0 ⟨.console, 7⟩).2.1
      rfl Relation.ReflTransGen.refl).1
  · exact ((c4_leave_stdin_open (⟨0, 1, none, 2, false⟩ : StdioCfg)
      { fds := [], remote_sockets := [], workerfd_stdin := none,
        stdinLog := [3], i := 0 }
      { fds := [], remote_sockets := [], workerfd_stdin := none,
        stdinLog := [3], i := 0 } [] 0 ⟨.console, 7⟩).2.1
      rfl Relation.ReflTransGen.refl).2
  · exact (c4_leave_stdin_open (⟨0, 1, none, 2, true⟩ : StdioCfg)
      { fds := [⟨0, ⟨false, false⟩, .again, none⟩, ⟨1, ⟨false, false⟩, .again, none⟩,
          ⟨7, ⟨true, false⟩, .ok [], none⟩],
        remote_sockets := [⟨.console, 7⟩], workerfd_stdin := some 5,
        stdinLog := [], i := 2 } _ [] 0 ⟨.console, 7⟩).2.2.1
      rfl (by decide) rfl rfl
  · exact ((c4_leave_stdin_open (⟨0, 1, none, 2, false⟩ : StdioCfg)
      { fds := [⟨0, ⟨false, false⟩, .again, none⟩, ⟨1, ⟨false, false⟩, .again, none⟩,
          ⟨7, ⟨true, false⟩, .ok [42], none⟩],
        remote_sockets := [⟨.console, 7⟩], workerfd_stdin := some 5,
        stdinLog := [], i := 2 } _ [42] 5 ⟨.console, 7⟩).2.2.2
      (by decide) rfl rfl rfl rfl).1
  · exact ((c4_leave_stdin_open (⟨0, 1, none, 2, false⟩ : StdioCfg)
      { fds := [⟨0, ⟨false, false⟩, .again, none⟩, ⟨1, ⟨false, false⟩, .again, none⟩,
          ⟨7, ⟨true, false⟩, .ok [42], none⟩],
        remote_sockets := [⟨.console, 7⟩], workerfd_stdin := some 5,
        stdinLog := [], i := 2 } _ [42] 5 ⟨.console, 7⟩).2.2.2
      (by decide) rfl rfl rfl rfl).2

/-! ## C7: plugin search order -/

theorem findSome_file_eq_some (cand : String → String) (files : List String) :
    ∀ (l : List String) (p : String),
      l.findSome? (fun dir => if cand dir ∈ files then some (cand dir) else none)
          = some p
        ↔ ∃ pre d post, l = pre ++ d :: post
            ∧ (∀ d0 ∈ pre, cand d0 ∉ files) ∧ cand d ∈ files ∧ p = cand d := by
  intro l
  induction l with
  | nil => intro p; simp
  | cons a rest ih =>
    intro p
    by_cases ha : cand a ∈ files
    · rw [List.findSome?_cons, if_pos ha]
      constructor
      · intro h
        exact ⟨[], a, rest, rfl, by simp, ha, (Option.some.inj h).symm⟩
      · rintro ⟨pre, d, post, heq, hpre, hd, rfl⟩
        cases pre with
        | nil =>
          simp only [List.nil_append, List.cons.injEq] at heq
          rw [heq.1]
        | cons x xs =>
          simp only [List.cons_append, List.cons.injEq] at heq
          exact absurd (heq.1 ▸ ha) (hpre x (List.mem_cons_self x xs))
    · rw [List.findSome?_cons, if_neg ha]
      rw [ih p]
      constructor
      · rintro ⟨pre, d, post, heq, hpre, hd, rfl⟩
        refine ⟨a :: pre, d, post, by rw [heq]; rfl, ?_, hd, rfl⟩
        rintro d0 hd0
        rcases List.mem_cons.mp hd0 with rfl | hd0
        · exact ha
        · exact hpre d0 hd0
      · rintro ⟨pre, d, post, heq, hpre, hd, rfl⟩
        cases pre with
        | nil =>
          simp only [List.nil_append, List.cons.injEq] at heq
          exact absurd (heq.1 ▸ hd) ha
        | cons x xs =>
          simp only [List.cons_append, List.cons.injEq] at heq
          exact ⟨xs, d, post, heq.2, fun d0 h => hpre d0 (List.mem_cons_of_mem x h),
            hd, rfl⟩

theorem findSome_file_eq_none (cand : String → String) (files : List String) :
    ∀ (l : List String),
      l.findSome? (fun dir => if cand dir ∈ files then some (cand dir) else none)
          = none
        ↔ ∀ d ∈ l, cand d ∉ files := by
  intro l
  induction l with
  | nil => simp
  | cons a rest ih =>
    by_cases ha : cand a ∈ files
    · rw [List.findSome?_cons, if_pos ha]
      simp [ha]
    · rw [List.findSome?_cons, if_neg ha]
      simp [ha, ih]

/-- C7: for every plugin name containing no directory component and not
ending in the dynamic-library extension, `resolve_plugin_path` searches
exactly the directory of the current executable, then each non-empty
colon-separated entry of `CONMON_LOG_PLUGIN_PATH`, then the two
built-in default directories, testing `lib<name>_log_plugin.so` in
each, and returns the first existing match; when none matches, `load`
fails with a message containing "Cannot load Log plugin" and
"not found". -/
theorem c7_plugin_search_order (fs : FsModel) (exe_dir : Option String)
    (env : Option String) (name : String)
    (hname : (hasNonemptyParent name || extensionIsSo name) = false) :
    (resolve_plugin_path fs exe_dir env name
      = (plugin_search_dirs exe_dir env).findSome?
          (fun dir => if joinPath dir (plugin_candidate name) ∈ fs.files
            then some (joinPath dir (plugin_candidate name)) else none))
    ∧ (∀ p, resolve_plugin_path fs exe_dir env name = some p ↔
        ∃ pre d post, plugin_search_dirs exe_dir env = pre ++ d :: post
          ∧ (∀ d0 ∈ pre, joinPath d0 (plugin_candidate name) ∉ fs.files)
          ∧ joinPath d (plugin_candidate name) ∈ fs.files
          ∧ p = joinPath d (plugin_candidate name))
    ∧ (resolve_plugin_path fs exe_dir env name = none →
        ∃ e, load_log_plugin_resolve fs exe_dir env name = .error e
          ∧ e.code = 1 ∧ strContainsSub e.msg "Cannot load Log plugin"
          ∧ strContainsSub e.msg "not found") := by
  have hcand : "lib" ++ name ++ "_log_plugin." ++ DYLIB_EXT = plugin_candidate name := by
    unfold plugin_candidate DYLIB_EXT
    rw [String.append_assoc]
    rfl
  have h1 : resolve_plugin_path fs exe_dir env name
      = (plugin_search_dirs exe_dir env).findSome?
          (fun dir => if joinPath dir (plugin_candidate name) ∈ fs.files
            then some (joinPath dir (plugin_candidate name)) else none) := by
    unfold resolve_plugin_path
    rw [if_neg (by simp [hname])]
    simp only [hcand]
    rfl
  refine ⟨h1, ?_, ?_⟩
  · intro p
    rw [h1]
    exact findSome_file_eq_some (fun dir => joinPath dir (plugin_candidate name))
      fs.files (plugin_search_dirs exe_dir env) p
  · intro hn
    refine ⟨⟨"Cannot load Log plugin " ++ name ++ ": not found", 1⟩, ?_, rfl, ?_, ?_⟩
    · unfold load_log_plugin_resolve
      rw [hn]
    · refine ⟨[], (" " ++ name ++ ": not found").data, ?_⟩
      have hsplit : ("Cannot load Log plugin " : String).data
          = ("Cannot load Log plugin" : String).data ++ (" " : String).data := rfl
      simp [String.data_append, hsplit]
    · refine ⟨("Cannot load Log plugin " ++ name ++ ": ").data, [], ?_⟩
      have hsplit : (": not found" : String).data
          = (": " : String).data ++ ("not found" : String).data := rfl
      simp [String.data_append, hsplit]

theorem c7_witness :
    (resolve_plugin_path ⟨["/d2/libdemo_log_plugin.so"], []⟩ (some "/d1")
        (some ":/d2::/d3") "demo" = some "/d2/libdemo_log_plugin.so")
    ∧ (∃ e, load_log_plugin_resolve ⟨[], []⟩ (some "/d1") none "missing_plugin_name"
        = .error e ∧ e.code = 1 ∧ strContainsSub e.msg "Cannot load Log plugin"
        ∧ strContainsSub e.msg "not found") := by
  constructor
  · exact ((c7_plugin_search_order ⟨["/d2/libdemo_log_plugin.so"], []⟩ (some "/d1")
      (some ":/d2::/d3") "demo" (by decide)).2.1 "/d2/libdemo_log_plugin.so").mpr
      ⟨["/d1"], "/d2", ["/d3", "/usr/lib/conmon-v3/log_plugins",
        "/usr/local/lib/conmon-v3/log_plugins"], by decide, by decide, by decide,
        by decide⟩
  · exact (c7_plugin_search_order ⟨[], []⟩ (some "/d1") none "missing_plugin_name"
      (by decide)).2.2 (by decide)

/-! ## C9: attach-socket parent-directory truncation -/

theorem takeWhile_no_nul (l : List Char) (h : ∀ c ∈ l, c ≠ '\x00') :
    l.takeWhile (fun b => b ≠ '\x00') = l := by
  induction l with
  | nil => rfl
  | cons c rest ih =>
    have hc : c ≠ '\x00' := h c (List.mem_cons_self c rest)
    rw [List.takeWhile_cons, if_pos (decide_eq_true hc),
      ih (fun d hd => h d (List.mem_cons_of_mem c hd))]

theorem takeWhile_append_nul (l : List Char) (h : ∀ c ∈ l, c ≠ '\x00') :
    (l ++ ['\x00']).takeWhile (fun b => b ≠ '\x00') = l := by
  induction l with
  | nil => decide
  | cons c rest ih =>
    have hc : c ≠ '\x00' := h c (List.mem_cons_self c rest)
    rw [List.cons_append, List.takeWhile_cons, if_pos (decide_eq_true hc),
      ih (fun d hd => h d (List.mem_cons_of_mem c hd))]

/-- C9 (amended): when `full_attach_path` is not configured and a
container UUID and socket directory are supplied, the attach socket's
parent directory is `<socket_dir>/<container_uuid>`; whenever that
path's byte length is at least `SUN_PATH_LEN - 1`, the returned path is
truncated by the rule: set the last byte to NUL, then keep only the
bytes before the first NUL (for a NUL-free path: chop exactly one
byte); and a symbolic link is created from the returned path to the
bundle path.  The truncation does not in general bring the attach
socket path within the `sockaddr_un` limit (see `c9_counterexample`);
binding relies on the `/proc/self/fd` indirection instead. -/
theorem c9_socket_parent_dir (bundle sp cu : String)
    (hne : joinPath sp cu ≠ "") :
    ∃ p, socket_parent_dir false bundle (some sp) (some cu)
        = .ok (p, some (p, bundle))
      ∧ p.data = ((if (joinPath sp cu).data.length ≥ SUN_PATH_LEN - 1 then
            (if (joinPath sp cu).data = [] then (joinPath sp cu).data
             else (joinPath sp cu).data.dropLast ++ ['\x00'])
            else (joinPath sp cu).data).takeWhile (fun b => b ≠ '\x00'))
      ∧ ((joinPath sp cu).data.length < SUN_PATH_LEN - 1 →
          (∀ c ∈ (joinPath sp cu).data, c ≠ '\x00') → p = joinPath sp cu)
      ∧ ((joinPath sp cu).data.length ≥ SUN_PATH_LEN - 1 →
          (∀ c ∈ (joinPath sp cu).data, c ≠ '\x00') →
          p.data = (joinPath sp cu).data.dropLast) := by
  refine ⟨_, ?_, rfl, ?_, ?_⟩
  · simp only [socket_parent_dir, Bool.false_eq_true, if_false]
    rw [if_neg hne]
  · intro hlt hnul
    have hcond : ¬ ((joinPath sp cu).data.length ≥ SUN_PATH_LEN - 1) := by omega
    calc (⟨((if (joinPath sp cu).data.length ≥ SUN_PATH_LEN - 1 then
            (if (joinPath sp cu).data = [] then (joinPath sp cu).data
             else (joinPath sp cu).data.dropLast ++ ['\x00'])
            else (joinPath sp cu).data).takeWhile (fun b => b ≠ '\x00'))⟩ : String)
        = (⟨(joinPath sp cu).data⟩ : String) := by
          rw [if_neg hcond, takeWhile_no_nul _ hnul]
    _ = joinPath sp cu := rfl
  · intro hge hnul
    have hdne : (joinPath sp cu).data ≠ [] := by
      intro hd
      exact hne (by calc joinPath sp cu = ⟨(joinPath sp cu).data⟩ := rfl
        _ = ⟨[]⟩ := by rw [hd]
        _ = "" := rfl)
    show ((if (joinPath sp cu).data.length ≥ SUN_PATH_LEN - 1 then
            (if (joinPath sp cu).data = [] then (joinPath sp cu).data
             else (joinPath sp cu).data.dropLast ++ ['\x00'])
            else (joinPath sp cu).data).takeWhile (fun b => b ≠ '\x00'))
        = (joinPath sp cu).data.dropLast
    rw [if_pos hge, if_neg hdne,
      takeWhile_append_nul _ (fun c hc => hnul c (List.dropLast_subset _ hc))]

set_option maxRecDepth 8000 in
/-- C9 (counterexample): with socket directory `/tmp/sockets` and a
120-character container UUID the parent path (133 bytes) collides with
the `sockaddr_un` limit and is truncated by one byte — yet the
resulting attach-socket path (139 bytes) still does not fit within the
kernel's `sun_path`, contrary to the claim that the truncation makes
the socket path fit. -/
theorem c9_counterexample :
    ∃ p link,
      socket_parent_dir false "/bundle" (some "/tmp/sockets")
          (some (⟨List.replicate 120 'a'⟩ : String)) = .ok (p, link)
        ∧ (joinPath "/tmp/sockets" (⟨List.replicate 120 'a'⟩ : String)).data.length
            ≥ SUN_PATH_LEN - 1
        ∧ p.data.length = 132
        ∧ ¬ fits_sun_path (attach_socket_path p) := by
  refine ⟨_, _, rfl, by decide, by decide, by decide⟩

theorem c9_witness :
    ∃ p, socket_parent_dir false "/b" (some "/tmp/sockets") (some "u1")
        = .ok (p, some (p, "/b")) ∧ p = joinPath "/tmp/sockets" "u1" := by
  obtain ⟨p, h1, -, h3, -⟩ := c9_socket_parent_dir "/b" "/tmp/sockets" "u1" (by decide)
  exact ⟨p, h1, h3 (by decide) (by decide)⟩

/-! ## C10: POLLHUP on any watched fd returns from the loop -/

/-- C10: if poll reports POLLHUP without POLLIN on the entry at the
current walk index — whether a built-in fd or an accepted remote
client fd — `handle_stdio` immediately returns success, terminating the
whole session event loop rather than removing that one client. -/
theorem c10_pollhup_returns (cfg : StdioCfg) (s : WalkState)
    (hlen : s.i < s.fds.length)
    (hin : (s.fds.getD s.i entryDefault).revents.pollin = false)
    (hup : (s.fds.getD s.i entryDefault).revents.pollhup = true) :
    step cfg s = .exitOk := by
  unfold step
  rw [if_pos hlen]
  simp only []
  rw [if_neg (by rw [hin]; decide), if_pos hup]

/-! ## C6: plugin ABI validation and close-exactly-once -/

/-- C6: `load` fails when `abi_version ≠ 1`, when `struct_size` is
smaller than the v1 vtable struct, or when `init` returns nonzero or
leaves a null handle; `load` succeeds exactly when `init` succeeded,
and then the vtable's `close` is invoked exactly once, at drop, before
the library handle is released; `close` is never called when `init` did
not succeed. -/
theorem c6_plugin_close_lifecycle (name : String) (vt : VTableM) :
    (vt.abi_version ≠ 1 →
      load_log_plugin name vt
        = .error ⟨"Cannot load Log plugin " ++ name ++ ": ABI version mismatch", 1⟩)
    ∧ (vt.abi_version = 1 → vt.struct_size < sizeof_conmon_log_plugin_v1 →
      load_log_plugin name vt
        = .error ⟨"Cannot load Log plugin " ++ name ++ ": vtable struct too small", 1⟩)
    ∧ (vt.abi_version = 1 → sizeof_conmon_log_plugin_v1 ≤ vt.struct_size →
      (vt.initRc ≠ 0 ∨ vt.initHandleNull = true) →
      load_log_plugin name vt
        = .error ⟨"Cannot load Log plugin " ++ name ++ ": init failed", 1⟩)
    ∧ (load_log_plugin name vt = .ok () ↔ init_succeeded vt)
    ∧ (init_succeeded vt →
      plugin_lifecycle name vt = [.initCall, .closeCall, .libRelease])
    ∧ (¬ init_succeeded vt → (plugin_lifecycle name vt).count .closeCall = 0)
    ∧ (plugin_lifecycle name vt).count .closeCall ≤ 1 := by
  refine ⟨?_, ?_, ?_, ?_, ?_, ?_, ?_⟩
  · intro h
    simp [load_log_plugin, h]
  · intro h1 h2
    simp [load_log_plugin, h1, h2]
  · intro h1 h2 h3
    have h2n : ¬ vt.struct_size < sizeof_conmon_log_plugin_v1 := by omega
    simp [load_log_plugin, h1, h2n, h3]
  · constructor
    · intro h
      unfold load_log_plugin at h
      split_ifs at h with h1 h2 h3
      obtain ⟨h3a, h3b⟩ := not_or.mp h3
      unfold init_succeeded
      refine ⟨not_not.mp h1, by omega, not_not.mp h3a, ?_⟩
      cases hb : vt.initHandleNull
      · rfl
      · exact absurd hb h3b
    · rintro ⟨ha, hs, hr, hn⟩
      have h2n : ¬ vt.struct_size < sizeof_conmon_log_plugin_v1 := by omega
      simp [load_log_plugin, ha, h2n, hr, hn]
  · rintro ⟨ha, hs, hr, hn⟩
    have h2n : ¬ vt.struct_size < sizeof_conmon_log_plugin_v1 := by omega
    simp [plugin_lifecycle, ha, h2n, hr, hn]
  · intro h
    unfold plugin_lifecycle
    split_ifs with h1 h2 h3
    · decide
    · decide
    · decide
    · obtain ⟨h3a, h3b⟩ := not_or.mp h3
      refine absurd (show init_succeeded vt from ?_) h
      unfold init_succeeded
      refine ⟨not_not.mp h1, by omega, not_not.mp h3a, ?_⟩
      cases hb : vt.initHandleNull
      · rfl
      · exact absurd hb h3b
  · unfold plugin_lifecycle
    split_ifs <;> decide

theorem c6_witness :
    load_log_plugin "none" ⟨2, 40, 0, false⟩
      = .error ⟨"Cannot load Log plugin " ++ "none" ++ ": ABI version mismatch", 1⟩
    ∧ load_log_plugin "none" ⟨1, 16, 0, false⟩
      = .error ⟨"Cannot load Log plugin " ++ "none" ++ ": vtable struct too small", 1⟩
    ∧ load_log_plugin "none" ⟨1, 40, -1, false⟩
      = .error ⟨"Cannot load Log plugin " ++ "none" ++ ": init failed", 1⟩
    ∧ plugin_lifecycle "none" ⟨1, 40, 0, false⟩ = [.initCall, .closeCall, .libRelease]
    ∧ (plugin_lifecycle "none" ⟨1, 40, 0, true⟩).count .closeCall = 0 := by
  refine ⟨?_, ?_, ?_, ?_, ?_⟩
  · exact (c6_plugin_close_lifecycle "none" ⟨2, 40, 0, false⟩).1 (by decide)
  · exact (c6_plugin_close_lifecycle "none" ⟨1, 16, 0, false⟩).2.1 rfl (by decide)
  · exact (c6_plugin_close_lifecycle "none" ⟨1, 40, -1, false⟩).2.2.1 rfl
      (by decide) (Or.inl (by decide))
  · exact (c6_plugin_close_lifecycle "none" ⟨1, 40, 0, false⟩).2.2.2.2.1
      ⟨rfl, by decide, rfl, rfl⟩
  · exact (c6_plugin_close_lifecycle "none" ⟨1, 40, 0, true⟩).2.2.2.2.2.1
      (by intro h; exact absurd h.2.2.2 (by decide))

/-! ## C8: runtime argv order -/

/-- C8: `generate_runtime_args` produces, in order, the runtime binary,
the generator's global flags (with `--systemd-cgroup` included for
create/restore when requested), the caller-supplied runtime args, the
subcommand with its subcommand-specific args, `--no-pivot` if
requested, `--no-new-keyring` if requested, the caller-supplied runtime
opts, and the container ID last. -/
theorem c8_runtime_argv_order (o : CommonCfg) (g : ArgsGen)
    (sc : Bool) (bundle pidfile : String) :
    generate_runtime_args o g
      = [o.runtime] ++ g.global_args ++ o.runtime_args ++ g.subcommand_args
        ++ (if o.no_pivot then ["--no-pivot"] else [])
        ++ (if o.no_new_keyring then ["--no-new-keyring"] else [])
        ++ o.runtime_opts ++ [o.cid]
    ∧ (createArgsGen sc bundle pidfile).global_args
        = (if sc then ["--systemd-cgroup"] else [])
    ∧ (createArgsGen sc bundle pidfile).subcommand_args
        = ["create", "--bundle", bundle, "--pid-file", pidfile]
    ∧ (restoreArgsGen sc bundle pidfile).global_args
        = (if sc then ["--systemd-cgroup"] else [])
    ∧ (restoreArgsGen sc bundle pidfile).subcommand_args
        = ["restore", "--bundle", bundle, "--pid-file", pidfile]
    ∧ generate_runtime_args o (createArgsGen true bundle pidfile)
      = [o.runtime, "--systemd-cgroup"] ++ o.runtime_args
        ++ ["create", "--bundle", bundle, "--pid-file", pidfile]
        ++ (if o.no_pivot then ["--no-pivot"] else [])
        ++ (if o.no_new_keyring then ["--no-new-keyring"] else [])
        ++ o.runtime_opts ++ [o.cid] := by
  refine ⟨?_, rfl, rfl, rfl, rfl, ?_⟩
  · simp [generate_runtime_args]
  · simp [generate_runtime_args, createArgsGen]

theorem c10_witness :
    step (⟨0, 1, none, 2, false⟩ : StdioCfg)
      { fds := [⟨0, ⟨false, false⟩, .again, none⟩, ⟨1, ⟨false, false⟩, .again, none⟩,
          ⟨7, ⟨false, true⟩, .again, none⟩],
        remote_sockets := [⟨.console, 7⟩], workerfd_stdin := none,
        stdinLog := [], i := 2 } = .exitOk :=
  c10_pollhup_returns _ _ (by decide) rfl rfl

end Conmon
